import Mathlib

/-!
Verification of the javya song-import core (format dispatcher, format
parsers, key detector, section detector) against its specification.

Python text is embedded as explicit character lists (`Str`).  Python string
methods, the regular expressions compiled by the source, the relevant parts
of the standard library used by it (`difflib.SequenceMatcher`,
`xml.etree.ElementTree`, `bytes.decode`) and the pydantic validation of
`SongCreate` are modelled by executable Lean functions; every definition
mirrors the corresponding source construct.
-/

namespace Javya

/-- Python-style string: an explicit list of characters. -/
abbrev Str := List Char

/-- Shorthand: Lean string literal to `Str`. -/
def str (s : String) : Str := s.data

/-- Left curly brace character (written via its code point). -/
def lbrace : Char := Char.ofNat 123

/-- Right curly brace character (written via its code point). -/
def rbrace : Char := Char.ofNat 125

/-- The whitespace characters of Python's `str.strip()` / regex `\s`
(ASCII range; the inputs of interest contain no exotic Unicode spaces). -/
def pyIsSpace (c : Char) : Bool :=
  c = ' ' || c = '\t' || c = '\n' || c = '\r' || c = Char.ofNat 11 || c = Char.ofNat 12

/-- Python `str.lstrip()`. -/
def pyLStrip (s : Str) : Str := s.dropWhile pyIsSpace

/-- Python `str.rstrip()`. -/
def pyRStrip (s : Str) : Str := (s.reverse.dropWhile pyIsSpace).reverse

/-- Python `str.strip()`. -/
def pyStrip (s : Str) : Str := pyRStrip (pyLStrip s)

/-- Python `s.split("\n")`. -/
def splitLines : Str → List Str
  | [] => [[]]
  | c :: t =>
    if c = '\n' then [] :: splitLines t
    else
      match splitLines t with
      | [] => [[c]]
      | l :: ls => (c :: l) :: ls

/-- Python `"\n".join(lines)`. -/
def joinLines : List Str → Str
  | [] => []
  | [l] => l
  | l :: rest => l ++ '\n' :: joinLines rest

/-- ASCII-range model of Python `str.lower()`. -/
def pyLower (s : Str) : Str := s.map Char.toLower

/-- ASCII-range model of Python `str.upper()`. -/
def pyUpper (s : Str) : Str := s.map Char.toUpper

/-- Python `needle in hay` on strings (substring test). -/
def strContains : (hay needle : Str) → Bool
  | hay, needle =>
    needle.isPrefixOf hay ||
      match hay with
      | [] => false
      | _ :: t => strContains t needle

/-- Python `s.startswith(p)`. -/
def strStartsWith (s p : Str) : Bool := p.isPrefixOf s

/-- Python `s.endswith(p)`. -/
def strEndsWith (s p : Str) : Bool := p.isSuffixOf s

/-- Python `s.split()` (split on whitespace runs, dropping empty pieces). -/
def pySplitWs (s : Str) : List Str :=
  (s.splitOnP pyIsSpace).filter (· ≠ [])

/-- Python `str.title()`: the first character of every run of letters is
uppercased, the rest lowercased (ASCII range). -/
def pyTitle (s : Str) : Str :=
  (s.foldl
    (fun (acc : Str × Bool) c =>
      if c.isAlpha then
        (acc.1 ++ [if acc.2 then c.toLower else c.toUpper], true)
      else
        (acc.1 ++ [c], false))
    ([], false)).1

/-- Python `s.replace(old, new)` for a single-character `old`/`new`. -/
def replaceChar (s : Str) (old new : Char) : Str :=
  s.map (fun c => if c = old then new else c)

/-- Python `s.replace(old, "")` removing every occurrence of a single character. -/
def removeChar (s : Str) (old : Char) : Str :=
  s.filter (· ≠ old)

/-- Python `s.rsplit(".", 1)` when `s` contains a dot: the pieces before and
after the last `'.'`; `none` when there is no dot. -/
def lastDotSplit (s : Str) : Option (Str × Str) :=
  match s.reverse.findIdx? (· = '.') with
  | none => none
  | some i => some (s.take (s.length - 1 - i), s.drop (s.length - i))

/-- `filename.lower().rsplit(".", 1)[-1] if "." in filename else ""`:
the lowercased extension used by several `can_parse` checks. -/
def extOf (filename : Str) : Str :=
  match lastDotSplit (pyLower filename) with
  | none => []
  | some (_, ext) => ext

/-- `filename.rsplit(".", 1)[0] if "." in filename else filename`. -/
def dropExt (filename : Str) : Str :=
  match lastDotSplit filename with
  | none => filename
  | some (stem, _) => stem

/-! ### A miniature backtracking regex engine

The source compiles a fixed set of `re` patterns.  They use only: literal
characters, character classes, alternation, greedy `*`/`+`/`?` over classes,
lazy `+?` over a class, a greedy `*` over one non-nullable compound
sub-pattern, capture groups, and the `$` anchor.  `RE` covers exactly these
constructs and `reRun` explores them in Python's backtracking order
(left alternative first, greedy repetition longest-first, lazy shortest-first). -/

/-- Regex AST. -/
inductive RE where
  | eps
  | cls (p : Char → Bool)
  | seq (a b : RE)
  | alt (a b : RE)
  | opt (a : RE)
  | starG (p : Char → Bool)
  | plusG (p : Char → Bool)
  | plusL (p : Char → Bool)
  | starC (a : RE)
  | grp (i : Nat) (a : RE)
  | eol

/-- Captured groups: later captures are consulted first. -/
abbrev Groups := List (Nat × Str)

/-- Length of the maximal prefix run satisfying `p`. -/
def maxRun (p : Char → Bool) (s : Str) : Nat := (s.takeWhile p).length

/-- Greedy repetition of a class: try consuming `n, n-1, …, 0` characters. -/
def tryDown (s : Str) (g : Groups) (k : Str → Groups → Option (Str × Groups)) :
    Nat → Option (Str × Groups)
  | 0 => k s g
  | n + 1 =>
    match k (s.drop (n + 1)) g with
    | some r => some r
    | none => tryDown s g k n

/-- Greedy `+` of a class: try consuming `n, n-1, …, 1` characters. -/
def tryDownPos (s : Str) (g : Groups) (k : Str → Groups → Option (Str × Groups)) :
    Nat → Option (Str × Groups)
  | 0 => none
  | n + 1 =>
    match k (s.drop (n + 1)) g with
    | some r => some r
    | none => tryDownPos s g k n

/-- Lazy `+?` of a class: try consuming `1, 2, …, maxLen` characters. -/
def tryUp (s : Str) (g : Groups) (k : Str → Groups → Option (Str × Groups))
    (maxLen : Nat) : Nat → Option (Str × Groups)
  | 0 => none
  | fuel + 1 =>
    let i := maxLen - fuel
    match k (s.drop i) g with
    | some r => some r
    | none => tryUp s g k maxLen fuel

/-- Size of a pattern, used to bound the matcher's structural fuel. -/
def reSize : RE → Nat
  | .eps => 1
  | .cls _ => 1
  | .seq a b => reSize a + reSize b + 1
  | .alt a b => reSize a + reSize b + 1
  | .opt a => reSize a + 1
  | .starG _ => 1
  | .plusG _ => 1
  | .plusL _ => 1
  | .starC a => reSize a + 1
  | .grp _ a => reSize a + 1
  | .eol => 1

/-- CPS backtracking matcher: run `re` against `s` with groups `g`, calling
continuation `k` on every candidate remainder in Python's exploration order.
`fuel` bounds the recursion structurally so that the function reduces; one
unit is spent per pattern-structure descent and per `starC` iteration (which
must consume input), so `reFuel` below always suffices. -/
def reRunF : Nat → RE → Str → Groups →
    (Str → Groups → Option (Str × Groups)) → Option (Str × Groups)
  | 0, _, _, _, _ => none
  | fuel + 1, re, s, g, k =>
    match re with
    | .eps => k s g
    | .cls p =>
      match s with
      | [] => none
      | c :: t => if p c then k t g else none
    | .seq a b => reRunF fuel a s g (fun s' g' => reRunF fuel b s' g' k)
    | .alt a b =>
      match reRunF fuel a s g k with
      | some r => some r
      | none => reRunF fuel b s g k
    | .opt a =>
      match reRunF fuel a s g k with
      | some r => some r
      | none => k s g
    | .starG p => tryDown s g k (maxRun p s)
    | .plusG p => tryDownPos s g k (maxRun p s)
    | .plusL p => tryUp s g k (maxRun p s) (maxRun p s)
    | .starC a =>
      match reRunF fuel a s g
          (fun s' g' =>
            if s'.length < s.length then reRunF fuel (.starC a) s' g' k
            else none) with
      | some r => some r
      | none => k s g
    | .grp i a =>
      reRunF fuel a s g (fun s' g' => k s' ((i, s.take (s.length - s'.length)) :: g'))
    | .eol => if s = [] || s.headD ' ' = '\n' then k s g else none

/-- Sufficient fuel: one unit per structural descent (at most `reSize r` in a
row) and per input-consuming `starC` iteration (at most `s.length`). -/
def reFuel (r : RE) (s : Str) : Nat := (s.length + 1) * (reSize r + 1) + 1

/-- Anchored match (`re.match`): consumed length and groups of the first
match found in backtracking order. -/
def reMatch (r : RE) (s : Str) : Option (Nat × Groups) :=
  (reRunF (reFuel r s) r s [] (fun rest g => some (rest, g))).map
    (fun p => (s.length - p.1.length, p.2))

/-- `match.group(i)` (`none` when the group did not participate). -/
def groupGet (g : Groups) (i : Nat) : Option Str :=
  (g.find? (fun p => p.1 == i)).map (·.2)

/-- Any anchored match consumes at most the whole input. -/
theorem reMatch_len_le {r : RE} {s : Str} {n : Nat} {g : Groups}
    (h : reMatch r s = some (n, g)) : n ≤ s.length := by
  unfold reMatch at h
  cases hrun : reRunF (reFuel r s) r s [] (fun rest g => some (rest, g)) with
  | none => rw [hrun] at h; simp at h
  | some p =>
    rw [hrun] at h
    simp at h
    omega

/-- A guarded anchored match consumes at most the whole input. -/
theorem reMatchIf_len_le {b : Bool} {r : RE} {s : Str} {n : Nat} {g : Groups}
    (h : (if b then reMatch r s else none) = some (n, g)) : n ≤ s.length := by
  cases b
  · simp at h
  · simp only [if_pos] at h
    exact reMatch_len_le h

/-- `re.search` without MULTILINE `^`: first match as
`(position, matched text, groups)`. -/
def reSearch (r : RE) (pos : Nat) (s : Str) : Option (Nat × Str × Groups) :=
  match reMatch r s with
  | some (n, g) => some (pos, s.take n, g)
  | none =>
    match s with
    | [] => none
    | _ :: t => reSearch r (pos + 1) t

/-- `re.search` of a MULTILINE `^…` pattern: attempt only at line starts. -/
def reSearchML (r : RE) (pos : Nat) (atStart : Bool) (s : Str) :
    Option (Nat × Str × Groups) :=
  match (if atStart then reMatch r s else none) with
  | some (n, g) => some (pos, s.take n, g)
  | none =>
    match s with
    | [] => none
    | c :: t => reSearchML r (pos + 1) (c = '\n') t

/-- `re.finditer` without MULTILINE `^`: non-overlapping leftmost matches as
`(position, matched text, groups)`.  The structural fuel is decremented once
per scan step or match, so `s.length + 1` always suffices. -/
def reFinditerF (r : RE) : Nat → Nat → Str → List (Nat × Str × Groups)
  | 0, _, _ => []
  | fuel + 1, pos, s =>
    match reMatch r s with
    | some (n, g) =>
      if n = 0 then
        (pos, [], g) ::
          (match s with
          | [] => []
          | _ :: t => reFinditerF r fuel (pos + 1) t)
      else
        (pos, s.take n, g) :: reFinditerF r fuel (pos + n) (s.drop n)
    | none =>
      match s with
      | [] => []
      | _ :: t => reFinditerF r fuel (pos + 1) t

/-- `re.finditer` without MULTILINE `^`. -/
def reFinditer (r : RE) (pos : Nat) (s : Str) : List (Nat × Str × Groups) :=
  reFinditerF r (s.length + 1) pos s

/-- `re.finditer` of a MULTILINE `^…` pattern (fuelled as above). -/
def reFinditerMLF (r : RE) : Nat → Nat → Bool → Str → List (Nat × Str × Groups)
  | 0, _, _, _ => []
  | fuel + 1, pos, atStart, s =>
    match (if atStart then reMatch r s else none) with
    | some (n, g) =>
      if n = 0 then
        (pos, [], g) ::
          (match s with
          | [] => []
          | c :: t => reFinditerMLF r fuel (pos + 1) (c = '\n') t)
      else
        (pos, s.take n, g) ::
          reFinditerMLF r fuel (pos + n) ((s.take n).getLastD ' ' = '\n') (s.drop n)
    | none =>
      match s with
      | [] => []
      | c :: t => reFinditerMLF r fuel (pos + 1) (c = '\n') t

/-- `re.finditer` of a MULTILINE `^…` pattern. -/
def reFinditerML (r : RE) (pos : Nat) (atStart : Bool) (s : Str) :
    List (Nat × Str × Groups) :=
  reFinditerMLF r (s.length + 1) pos atStart s

/-- `pattern.sub(repl, s)` without MULTILINE `^` (fuelled as above). -/
def reSubF (r : RE) (repl : Str) : Nat → Str → Str
  | 0, _ => []
  | fuel + 1, s =>
    match reMatch r s with
    | some (n, _) =>
      if n = 0 then
        match s with
        | [] => repl
        | c :: t => repl ++ c :: reSubF r repl fuel t
      else
        repl ++ reSubF r repl fuel (s.drop n)
    | none =>
      match s with
      | [] => []
      | c :: t => c :: reSubF r repl fuel t

/-- `pattern.sub(repl, s)` without MULTILINE `^`. -/
def reSub (r : RE) (repl : Str) (s : Str) : Str :=
  reSubF r repl (s.length + 1) s

/-- `pattern.sub(repl, s)` of a MULTILINE `^…` pattern (fuelled as above). -/
def reSubMLF (r : RE) (repl : Str) : Nat → Bool → Str → Str
  | 0, _, _ => []
  | fuel + 1, atStart, s =>
    match (if atStart then reMatch r s else none) with
    | some (n, _) =>
      if n = 0 then
        match s with
        | [] => repl
        | c :: t => repl ++ c :: reSubMLF r repl fuel (c = '\n') t
      else
        repl ++ reSubMLF r repl fuel ((s.take n).getLastD ' ' = '\n') (s.drop n)
    | none =>
      match s with
      | [] => []
      | c :: t => c :: reSubMLF r repl fuel (c = '\n') t

/-- `pattern.sub(repl, s)` of a MULTILINE `^…` pattern. -/
def reSubML (r : RE) (repl : Str) (atStart : Bool) (s : Str) : Str :=
  reSubMLF r repl (s.length + 1) atStart s

/-- Literal character. -/
def chrRE (c : Char) : RE := .cls (· = c)

/-- Case-insensitive literal character (IGNORECASE patterns, ASCII range). -/
def chrIRE (c : Char) : RE := .cls (fun x => x.toLower = c.toLower)

/-- Sequence of a list of sub-patterns. -/
def catRE (l : List RE) : RE := l.foldr RE.seq RE.eps

/-- Alternation over a list (left-to-right preference). -/
def altRE (l : List RE) : RE := l.foldr RE.alt (RE.cls (fun _ => false))

/-- Case-sensitive literal string. -/
def litRE (s : String) : RE := catRE (s.data.map chrRE)

/-- Case-insensitive literal string. -/
def litIRE (s : String) : RE := catRE (s.data.map chrIRE)

/-- Model of `\w` (ASCII range). -/
def isWordChar (c : Char) : Bool := c.isAlphanum || c = '_'

/-- Model of `.` (anything but a newline). -/
def isDotChar (c : Char) : Bool := c ≠ '\n'

/-! ### The source's compiled patterns -/

/-- `[#b♯♭]`. -/
def isAccidental (c : Char) : Bool := c = '#' || c = 'b' || c = '♯' || c = '♭'

/-- `[A-G]`. -/
def isUpperNote (c : Char) : Bool := 'A' ≤ c && c ≤ 'G'

/-- `[A-Ga-g]`. -/
def isNoteLetter (c : Char) : Bool :=
  ('A' ≤ c && c ≤ 'G') || ('a' ≤ c && c ≤ 'g')

/-- `ChordProParser.DIRECTIVE_PATTERN`: `\{(\w+):\s*(.+?)\}`. -/
def directiveRE : RE :=
  catRE [chrRE lbrace, .grp 1 (.plusG isWordChar), chrRE ':',
    .starG pyIsSpace, .grp 2 (.plusL isDotChar), chrRE rbrace]

/-- `BaseSongParser.CHORD_PATTERN`: `\[([A-Ga-g][#b♯♭]?[^\]]*)\]`. -/
def chordRE : RE :=
  catRE [chrRE '[',
    .grp 1 (catRE [.cls isNoteLetter, .opt (.cls isAccidental), .starG (· ≠ ']')]),
    chrRE ']']

/-- The directive-removal pattern of `_extract_lyrics`: `\{[^}]+\}`. -/
def directiveBlockRE : RE :=
  catRE [chrRE lbrace, .plusG (· ≠ rbrace), chrRE rbrace]

/-- `re.search(r"(\d+)", value)`: first run of digits. -/
def digitsRE : RE := .grp 1 (.plusG Char.isDigit)

/-- The sub-pattern `(?:maj|min|m|dim|aug|sus[24]?|add[29]?|7|9|11|13|6)`
of the chord-line grammar. -/
def chordQualityRE : RE :=
  altRE [litRE "maj", litRE "min", litRE "m", litRE "dim", litRE "aug",
    catRE [litRE "sus", .opt (.cls (fun c => c = '2' || c = '4'))],
    catRE [litRE "add", .opt (.cls (fun c => c = '2' || c = '9'))],
    litRE "7", litRE "9", litRE "11", litRE "13", litRE "6"]

/-- One chord of the chord-line grammar:
`[A-G][#b♯♭]?(?:maj|min|…|6)?(?:/[A-G][#b♯♭]?)?`. -/
def singleChordCoreRE : RE :=
  catRE [.cls isUpperNote, .opt (.cls isAccidental), .opt chordQualityRE,
    .opt (catRE [chrRE '/', .cls isUpperNote, .opt (.cls isAccidental)])]

/-- `PlainTextParser.CHORD_PATTERN` / `UltimateGuitarParser.CHORD_LINE_PATTERN`:
`^[\s]*(CHORD[\s]+)*CHORD[\s]*$`. -/
def chordLineRE : RE :=
  catRE [.starG pyIsSpace,
    .starC (.grp 1 (catRE [singleChordCoreRE, .plusG pyIsSpace])),
    singleChordCoreRE, .starG pyIsSpace, .eol]

/-- `SINGLE_CHORD_PATTERN`: `(CHORD)` (the whole chord as group 1). -/
def singleChordRE : RE := .grp 1 singleChordCoreRE

/-- `SectionDetector.SECTION_MARKER_PATTERN` alternation, expanded into its
literal alternatives in Python's backtracking order
(`V(?:erse)?` tries `Verse` before `V`, `P(?:re)?(?:-?C(?:horus)?)?` tries
`Pre-Chorus`, `Pre-C`, `PreChorus`, `PreC`, `Pre`, `P-Chorus`, `P-C`,
`PChorus`, `PC`, `P`, then the remaining literal alternatives in order). -/
def sectionMarkerAltRE : RE :=
  altRE ([ "Verse", "V", "Chorus", "C", "Bridge", "B",
    "Pre-Chorus", "Pre-C", "PreChorus", "PreC", "Pre",
    "P-Chorus", "P-C", "PChorus", "PC", "P",
    "Tag", "Intro", "Outro", "Interlude", "Instrumental", "Ending",
    "Coda", "Refrain", "Hook",
    "Verse", "Chorus", "Bridge", "Pre-Chorus", "PreChorus", "Pre Chorus"
  ].map (fun w => .grp 1 (litIRE w)))

/-- `SectionDetector.SECTION_MARKER_PATTERN`:
`^\s*\[?\s*(…)(?:\s*(\d+))?\s*\]?\s*:?\s*$`, IGNORECASE. -/
def sectionMarkerRE : RE :=
  catRE [.starG pyIsSpace, .opt (chrRE '['), .starG pyIsSpace,
    sectionMarkerAltRE,
    .opt (catRE [.starG pyIsSpace, .grp 2 (.plusG Char.isDigit)]),
    .starG pyIsSpace, .opt (chrRE ']'), .starG pyIsSpace,
    .opt (chrRE ':'), .starG pyIsSpace, .eol]

/-- The chord-marker-removal pattern of
`SectionDetector._normalize_for_comparison`: `\[[A-Ga-g][^\]]*\]`. -/
def comparisonChordRE : RE :=
  catRE [chrRE '[', .cls isNoteLetter, .starG (· ≠ ']'), chrRE ']']

/-- The whitespace-collapse pattern `\s+` of `_normalize_for_comparison`. -/
def wsRunRE : RE := .plusG pyIsSpace

/-! ### `difflib.SequenceMatcher` (used by the section detector)

Model of CPython's `SequenceMatcher(None, a, b).ratio()` with default
`autojunk=True`: `b2j` maps each character of `b` to its ascending index
list, dropping "popular" characters when `len(b) >= 200`; the total size of
the matching blocks is computed by the standard recursive
longest-matching-block decomposition. -/

/-- Ascending index lists of each character of `b` (`b2j` before autojunk). -/
def b2jFull (b : Str) : List (Char × List Nat) :=
  b.enum.foldl
    (fun acc p =>
      match acc.lookup p.2 with
      | some l => acc.map (fun q => if q.1 = p.2 then (q.1, l ++ [p.1]) else q)
      | none => acc ++ [(p.2, [p.1])])
    []

/-- `b2j` after the autojunk step. -/
def b2jOf (b : Str) : List (Char × List Nat) :=
  let full := b2jFull b
  if 200 ≤ b.length then
    let ntest := b.length / 100 + 1
    full.filter (fun p => ¬ ntest < p.2.length)
  else full

/-- Inner loop of `find_longest_match` over the index list of `a[i]` in `b`
(`continue` below `blo`, `break` at `bhi`); returns the updated `newj2len`
row and the updated `(besti, bestj, bestsize)`. -/
def flmRow (blo bhi i : Nat) (j2len : List (Nat × Nat)) :
    List Nat → List (Nat × Nat) → Nat × Nat × Nat → List (Nat × Nat) × (Nat × Nat × Nat)
  | [], nj, best => (nj, best)
  | j :: rest, nj, best =>
    if j < blo then flmRow blo bhi i j2len rest nj best
    else if bhi ≤ j then (nj, best)
    else
      let k := (if j = 0 then 0 else (j2len.lookup (j - 1)).getD 0) + 1
      let best' := if best.2.2 < k then (i + 1 - k, j + 1 - k, k) else best
      flmRow blo bhi i j2len rest ((j, k) :: nj) best'

/-- The row loop of `find_longest_match` for `i` in `range(alo, ahi)`. -/
def flmRows (a : Str) (b2j : List (Char × List Nat)) (blo bhi : Nat) :
    List Nat → List (Nat × Nat) → Nat × Nat × Nat → Nat × Nat × Nat
  | [], _, best => best
  | i :: rest, j2len, best =>
    let idxs := (b2j.lookup (a.getD i ' ')).getD []
    let (nj, best') := flmRow blo bhi i j2len idxs [] best
    flmRows a b2j blo bhi rest nj best'

/-- The leftward extension loop of `find_longest_match`
(the junk set is empty: `isjunk` is `None`). -/
def flmExtendLeft (a b : Str) (alo blo : Nat) :
    Nat → Nat × Nat × Nat → Nat × Nat × Nat
  | 0, best => best
  | fuel + 1, (besti, bestj, bestsize) =>
    if alo < besti ∧ blo < bestj ∧ a.getD (besti - 1) ' ' = b.getD (bestj - 1) ' ' then
      flmExtendLeft a b alo blo fuel (besti - 1, bestj - 1, bestsize + 1)
    else (besti, bestj, bestsize)

/-- The rightward extension loop of `find_longest_match`. -/
def flmExtendRight (a b : Str) (ahi bhi : Nat) :
    Nat → Nat × Nat × Nat → Nat × Nat × Nat
  | 0, best => best
  | fuel + 1, (besti, bestj, bestsize) =>
    if besti + bestsize < ahi ∧ bestj + bestsize < bhi ∧
        a.getD (besti + bestsize) ' ' = b.getD (bestj + bestsize) ' ' then
      flmExtendRight a b ahi bhi fuel (besti, bestj, bestsize + 1)
    else (besti, bestj, bestsize)

/-- `SequenceMatcher.find_longest_match(alo, ahi, blo, bhi)`. -/
def findLongestMatch (a b : Str) (b2j : List (Char × List Nat))
    (alo ahi blo bhi : Nat) : Nat × Nat × Nat :=
  let best := flmRows a b2j blo bhi (List.range' alo (ahi - alo)) [] (alo, blo, 0)
  let best := flmExtendLeft a b alo blo best.1 best
  flmExtendRight a b ahi bhi (ahi + bhi) best

/-- Total size of the matching blocks (`get_matching_blocks` recursion; only
the sum of the block sizes is needed for `ratio`). -/
def smMatches (a b : Str) (b2j : List (Char × List Nat)) :
    Nat → Nat → Nat → Nat → Nat → Nat
  | 0, _, _, _, _ => 0
  | fuel + 1, alo, ahi, blo, bhi =>
    let (i, j, k) := findLongestMatch a b b2j alo ahi blo bhi
    if k = 0 then 0
    else
      k + smMatches a b b2j fuel alo i blo j + smMatches a b b2j fuel (i + k) ahi (j + k) bhi

/-- `SequenceMatcher(None, a, b).ratio()` as an exact rational. -/
def ratioOf (a b : Str) : ℚ :=
  let m := smMatches a b (b2jOf b) (a.length + b.length + 1) 0 a.length 0 b.length
  if a.length + b.length = 0 then 1
  else (2 * m : ℚ) / (a.length + b.length)

/-! ### Section detector (`section_detector.py`) -/

/-- `SectionType` enum. -/
inductive SectionType where
  | verse | chorus | bridge | preChorus | tag | intro | outro
  | interlude | instrumental | ending | unknown
deriving DecidableEq, Repr

/-- The `.value` string of each `SectionType`. -/
def sectionTypeValue : SectionType → Str
  | .verse => str "Verse"
  | .chorus => str "Chorus"
  | .bridge => str "Bridge"
  | .preChorus => str "Pre-Chorus"
  | .tag => str "Tag"
  | .intro => str "Intro"
  | .outro => str "Outro"
  | .interlude => str "Interlude"
  | .instrumental => str "Instrumental"
  | .ending => str "Ending"
  | .unknown => str "Section"

/-- `SectionDetector.SECTION_ALIASES`. -/
def sectionAliases : List (Str × SectionType) :=
  [ (str "v", .verse), (str "verse", .verse),
    (str "c", .chorus), (str "chorus", .chorus), (str "refrain", .chorus),
    (str "hook", .chorus),
    (str "b", .bridge), (str "bridge", .bridge),
    (str "p", .preChorus), (str "pc", .preChorus), (str "pre", .preChorus),
    (str "pre-c", .preChorus), (str "pre-chorus", .preChorus),
    (str "prechorus", .preChorus), (str "pre chorus", .preChorus),
    (str "tag", .tag), (str "coda", .tag), (str "ending", .ending),
    (str "intro", .intro), (str "outro", .outro),
    (str "interlude", .interlude), (str "instrumental", .instrumental) ]

/-- `DetectedSection` dataclass (confidence as an exact rational). -/
structure DetectedSection where
  sectionType : SectionType
  number : Option Nat
  startLine : Nat
  endLine : Nat
  content : Str
  confidence : ℚ
  isAutoDetected : Bool
deriving DecidableEq, Repr

/-- `SectionDetectionResult` dataclass. -/
structure SectionDetectionResult where
  sections : List DetectedSection := []
  normalizedContent : Str := []
  hadExistingMarkers : Bool := false
deriving DecidableEq, Repr

/-- Decimal digits of a natural number (fuel-structural; `n + 1` digits
always suffice). -/
def natToStrF : Nat → Nat → Str
  | 0, _ => []
  | fuel + 1, n =>
    if n < 10 then [Char.ofNat (48 + n)]
    else natToStrF fuel (n / 10) ++ [Char.ofNat (48 + n % 10)]

/-- Decimal digits of a natural number. -/
def natToStr (n : Nat) : Str := natToStrF (n + 1) n

/-- `int(...)` on a run of decimal digits. -/
def digitsToNat (s : Str) : Nat :=
  s.foldl (fun a c => a * 10 + (c.toNat - 48)) 0

/-- `SectionDetector._format_marker`. -/
def formatMarker (t : SectionType) (n : Option Nat) : Str :=
  match n with
  | some k => '[' :: (sectionTypeValue t ++ ' ' :: natToStr k ++ [']'])
  | none => '[' :: (sectionTypeValue t ++ [']'])

/-- The per-line part of `SectionDetector._find_existing_markers`: match the
marker pattern, look the lowered/space-stripped group 1 up in the aliases
(default `UNKNOWN`), and parse the optional number. -/
def markerParse (line : Str) : Option (SectionType × Option Nat) :=
  match reMatch sectionMarkerRE line with
  | none => none
  | some (_, g) =>
    let sectionText := removeChar (pyLower ((groupGet g 1).getD [])) ' '
    some ((sectionAliases.lookup sectionText).getD .unknown,
      (groupGet g 2).map digitsToNat)

/-- `SectionDetector._find_existing_markers`. -/
def findExistingMarkers (lines : List Str) : List (Nat × SectionType × Option Nat) :=
  lines.enum.filterMap (fun p =>
    (markerParse p.2).map (fun tn => (p.1, tn.1, tn.2)))

/-- One `section_counts` update + marker number resolution of
`_process_existing_markers`. -/
def resolveNumber (counts : List (SectionType × Nat)) (t : SectionType)
    (n : Option Nat) : List (SectionType × Nat) × Option Nat :=
  match n with
  | none =>
    if t = .verse ∨ t = .chorus then
      let k := (counts.lookup t).getD 0 + 1
      ((t, k) :: counts, some k)
    else (counts, none)
  | some k =>
    ((t, max ((counts.lookup t).getD 0) k) :: counts, some k)

/-- The marker loop of `SectionDetector._process_existing_markers`. -/
def processMarkersGo (lines : List Str) :
    List (Nat × SectionType × Option Nat) → List (SectionType × Nat) →
    List Str → List DetectedSection → List Str × List DetectedSection
  | [], _, normLines, secs => (normLines, secs)
  | (lineIdx, t, n) :: rest, counts, normLines, secs =>
    let (counts', number) := resolveNumber counts t n
    let endLine := match rest with
      | (nxt, _, _) :: _ => nxt
      | [] => lines.length
    let content := pyStrip (joinLines ((lines.drop (lineIdx + 1)).take (endLine - (lineIdx + 1))))
    let normLines' := normLines.set lineIdx (formatMarker t number)
    let sec : DetectedSection :=
      ⟨t, number, lineIdx, endLine, content, 1, false⟩
    processMarkersGo lines rest counts' normLines' (secs ++ [sec])

/-- `SectionDetector._process_existing_markers`. -/
def processMarkers (lines : List Str)
    (markers : List (Nat × SectionType × Option Nat)) : SectionDetectionResult :=
  let (normLines, secs) := processMarkersGo lines markers [] lines []
  ⟨secs, joinLines normLines, true⟩

/-- A lyric block of `_split_into_blocks`. -/
structure TextBlock where
  content : Str
  startLine : Nat
  endLine : Nat
deriving DecidableEq, Repr

/-- The line loop of `SectionDetector._split_into_blocks`; the final block
(closed after the loop) ends at `len(lines)`. -/
def splitBlocksGo (total : Nat) :
    List (Nat × Str) → List Str → Nat → List TextBlock → List TextBlock
  | [], cur, bstart, blocks =>
    if cur ≠ [] then blocks ++ [⟨joinLines cur, bstart, total⟩] else blocks
  | (i, line) :: rest, cur, bstart, blocks =>
    if pyStrip line = [] then
      if cur ≠ [] then splitBlocksGo total rest [] 0 (blocks ++ [⟨joinLines cur, bstart, i⟩])
      else splitBlocksGo total rest [] 0 blocks
    else
      if cur = [] then splitBlocksGo total rest [line] i blocks
      else splitBlocksGo total rest (cur ++ [line]) bstart blocks

/-- `SectionDetector._split_into_blocks`. -/
def splitIntoBlocks (content : Str) : List TextBlock :=
  let lines := splitLines content
  splitBlocksGo lines.length lines.enum [] 0 []

/-- `SectionDetector._normalize_for_comparison`. -/
def normalizeForComparison (text : Str) : Str :=
  pyStrip (reSub wsRunRE (str " ") (pyLower (reSub comparisonChordRE [] text)))

/-- `SectionDetector._calculate_similarity`. -/
def calculateSimilarity (t1 t2 : Str) : ℚ :=
  ratioOf (normalizeForComparison t1) (normalizeForComparison t2)

/-- `SectionDetector.CHORUS_SIMILARITY_THRESHOLD = 0.85`. -/
def chorusSimilarityThreshold : ℚ := 17/20

/-- `SectionDetector._find_repeated_blocks` (the Python `set` is modelled by
a list; only membership is consulted). -/
def findRepeatedBlocks (blocks : List TextBlock) : List Nat :=
  (List.range blocks.length).flatMap (fun i =>
    ((List.range blocks.length).filter (fun j =>
      i < j ∧ chorusSimilarityThreshold ≤
        calculateSimilarity ((blocks.getD i ⟨[], 0, 0⟩).content)
          ((blocks.getD j ⟨[], 0, 0⟩).content))).flatMap (fun j => [i, j]))

/-- The block-classification loop of `_detect_sections_heuristically`. -/
def heuristicGo (repeated : List Nat) :
    List (Nat × TextBlock) → Nat → Nat → List Str → List DetectedSection →
    List Str × List DetectedSection
  | [], _, _, parts, secs => (parts, secs)
  | (i, b) :: rest, verseNum, chorusNum, parts, secs =>
    if repeated.contains i then
      let chorusNum' := chorusNum + 1
      let number := if 1 < chorusNum' then some chorusNum' else none
      let marker := formatMarker .chorus number
      heuristicGo repeated rest verseNum chorusNum'
        (parts ++ [marker, b.content])
        (secs ++ [⟨.chorus, number, b.startLine, b.endLine, b.content, 4/5, true⟩])
    else
      let verseNum' := verseNum + 1
      let marker := formatMarker .verse (some verseNum')
      heuristicGo repeated rest verseNum' chorusNum
        (parts ++ [marker, b.content])
        (secs ++ [⟨.verse, some verseNum', b.startLine, b.endLine, b.content, 3/5, true⟩])

/-- `SectionDetector._detect_sections_heuristically`. -/
def detectHeuristically (content : Str) : SectionDetectionResult :=
  let blocks := splitIntoBlocks content
  if blocks = [] then ⟨[], content, false⟩
  else if blocks.length = 1 then
    ⟨[⟨.verse, some 1, 0, (content.filter (· = '\n')).length + 1,
        (blocks.headD ⟨[], 0, 0⟩).content, 1/2, true⟩],
      str "[Verse 1]\n" ++ content, false⟩
  else
    let repeated := findRepeatedBlocks blocks
    let (parts, secs) := heuristicGo repeated blocks.enum 0 0 [] []
    ⟨secs, (parts.intersperse (str "\n\n")).flatten, false⟩

/-- `SectionDetector.detect_sections`. -/
def detectSections (content : Str) : SectionDetectionResult :=
  if content = [] ∨ pyStrip content = [] then ⟨[], [], false⟩
  else
    let lines := splitLines content
    let markers := findExistingMarkers lines
    if markers ≠ [] then processMarkers lines markers
    else detectHeuristically content

/-! ### Key detector (`key_detector.py`) -/

/-- The 17 values of the `MusicalKey` enum (`app/enums/keys.py`). -/
inductive MusicalKey where
  | C | G | D | A | E | B | Fsharp | Csharp
  | F | Bflat | Eflat | Aflat | Dflat | Gflat
  | Dsharp | Gsharp | Asharp
deriving DecidableEq, Repr

/-- `KeyConfidence` enum. -/
inductive KeyConfidence where
  | high | medium | low
deriving DecidableEq, Repr

/-- `KeyDetectionResult` dataclass; the float `confidence_score` is modelled
as an exact rational. -/
structure KeyDetectionResult where
  detectedKey : Option MusicalKey
  confidence : KeyConfidence
  confidenceScore : ℚ
deriving DecidableEq, Repr

/-- `KeyDetector.NOTE_TO_SEMITONE`. -/
def noteToSemitone : List (Str × Nat) :=
  [ (str "C", 0), (str "C#", 1), (str "Db", 1), (str "D", 2), (str "D#", 3),
    (str "Eb", 3), (str "E", 4), (str "F", 5), (str "F#", 6), (str "Gb", 6),
    (str "G", 7), (str "G#", 8), (str "Ab", 8), (str "A", 9), (str "A#", 10),
    (str "Bb", 10), (str "B", 11) ]

/-- `KeyDetector.SEMITONE_TO_KEY` (`dict.get`, hence `Option`). -/
def semitoneToKey (s : Nat) : Option MusicalKey :=
  [ (0, MusicalKey.C), (1, MusicalKey.Csharp), (2, MusicalKey.D),
    (3, MusicalKey.Eflat), (4, MusicalKey.E), (5, MusicalKey.F),
    (6, MusicalKey.Fsharp), (7, MusicalKey.G), (8, MusicalKey.Aflat),
    (9, MusicalKey.A), (10, MusicalKey.Bflat), (11, MusicalKey.B)
  ].lookup s

/-- `KeyDetector.CHORD_WEIGHTS.get(interval, -0.3)`: chord-function weight of
an interval (float constants are exact here except `-0.3`, modelled as the
exact rational the source text denotes). -/
def chordWeight (i : ℤ) : ℚ :=
  if i = 0 then 3
  else if i = 7 then 5/2
  else if i = 5 then 2
  else if i = 9 then 3/2
  else if i = 2 then 1
  else if i = 4 then 1
  else if i = 11 then 1/2
  else -(3/10)

/-- `KeyDetector._extract_root`: strip, match `^([A-Ga-g])([#b♯♭])?`,
uppercase the letter and normalise the accidental. -/
def extractRoot (chord : Str) : Option Str :=
  if chord = [] then none
  else
    match pyStrip chord with
    | [] => none
    | c :: rest =>
      if isNoteLetter c then
        let note : Str := [c.toUpper]
        some
          (match rest with
          | [] => note
          | b :: _ =>
            if b = 'b' || b = '♭' then note ++ [ 'b' ]
            else if b = '#' || b = '♯' then note ++ [ '#' ]
            else note)
      else none

/-- The `root_semitones` list built by `detect_key`: for each chord, keep the
semitone of its extracted root when both lookups succeed. -/
def rootSemitones (chords : List Str) : List Nat :=
  chords.filterMap (fun ch => (extractRoot ch).bind (fun r => noteToSemitone.lookup r))

/-- `KeyDetector._calculate_key_score`: the source sums
`weight((root - candidate) % 12) * count` over `Counter(root_semitones)`;
summing the weight over every occurrence of the list is the same sum. -/
def keyScore (semis : List Nat) (candidate : Nat) : ℚ :=
  (semis.map (fun r => chordWeight (((r : ℤ) - candidate) % 12))).sum

/-- One step of a stable descending insertion sort on `(key, score)` pairs:
an element is placed after every element of greater-or-equal score, which is
exactly the order of Python's stable `sorted(..., reverse=True)`. -/
def insertDesc (x : Nat × ℚ) : List (Nat × ℚ) → List (Nat × ℚ)
  | [] => [x]
  | y :: ys => if x.2 ≤ y.2 then y :: insertDesc x ys else x :: y :: ys

/-- Stable descending sort by score, modelling
`sorted(key_scores.items(), key=lambda x: x[1], reverse=True)`. -/
def sortDesc (l : List (Nat × ℚ)) : List (Nat × ℚ) :=
  l.foldl (fun acc x => insertDesc x acc) []

/-- `" ".join(l)`. -/
def joinSpaces (l : List Str) : Str := (l.intersperse (str " ")).flatten

/-- `KeyDetector.detect_key`. -/
def detectKey (chords : List Str) : KeyDetectionResult :=
  if chords = [] then ⟨none, KeyConfidence.low, 0⟩
  else
    let semis := rootSemitones chords
    if semis = [] then ⟨none, KeyConfidence.low, 0⟩
    else
      let pairs := (List.range 12).map (fun c => (c, keyScore semis c))
      let sorted := sortDesc pairs
      let best := sorted.headD (0, 0)
      let secondScore := ((sorted.drop 1).headD (0, 0)).2
      let confidenceScore : ℚ :=
        if 0 < best.2 ∧ 0 ≤ secondScore then (best.2 - secondScore) / best.2 else 0
      let confidence :=
        if 3/10 ≤ confidenceScore then KeyConfidence.high
        else if 3/20 ≤ confidenceScore then KeyConfidence.medium
        else KeyConfidence.low
      ⟨semitoneToKey best.1, confidence, confidenceScore⟩

/-! ### `SongCreate` (`app/schemas/song.py`) and `_build_song_data`

Only the fields the parsers pass are modelled.  The pydantic validation
relevant to them: `name` required with `min_length=1`, `max_length=255` and a
not-whitespace-only validator that stores the stripped name; `artist` with
`max_length=255`; `tempo_bpm` between 20 and 300. -/

/-- The `SongCreate` fields produced by the import parsers. -/
structure SongCreate where
  name : Str
  artist : Option Str := none
  originalKey : Option MusicalKey := none
  tempoBpm : Option Nat := none
  lyrics : Option Str := none
  chordproChart : Option Str := none
  notes : Option Str := none
deriving DecidableEq, Repr

/-- The `None`/`""` filtering of `_build_song_data`. -/
def normField (o : Option Str) : Option Str :=
  match o with
  | some [] => none
  | x => x

/-- `BaseSongParser._build_song_data` followed by pydantic validation of
`SongCreate`; an error result models the `ValidationError` raised. -/
def buildSongData (name : Str) (artist : Option Str) (okey : Option MusicalKey)
    (tempo : Option Nat) (lyrics chart notes : Option Str) :
    Except Str SongCreate :=
  if name = [] then .error (str "name: Field required")
  else if 255 < name.length then
    .error (str "name: String should have at most 255 characters")
  else if pyStrip name = [] then
    .error (str "name: Name cannot be empty or whitespace only")
  else if (normField artist).any (fun a => 255 < a.length) then
    .error (str "artist: String should have at most 255 characters")
  else if tempo.any (fun t => t < 20 || 300 < t) then
    .error (str "tempo_bpm: Input should be between 20 and 300")
  else
    .ok ⟨pyStrip name, normField artist, okey, tempo, normField lyrics,
      normField chart, normField notes⟩

/-! ### Base parser helpers (`base.py`) -/

/-- `ParseResult` dataclass. -/
structure ParseResult where
  success : Bool
  songData : Option SongCreate := none
  error : Option Str := none
  detectedFormat : Str := str "unknown"
  specifiedKey : Option MusicalKey := none
  detectedKey : Option MusicalKey := none
  keyConfidence : Option KeyConfidence := none
  sectionsNormalized : Bool := false
deriving DecidableEq, Repr

/-- Python truthiness of an optional string (`None` and `""` are falsy). -/
def optFalsy (o : Option Str) : Bool := (o.getD []).isEmpty

/-- The suffix-removal loop of `BaseSongParser._normalize_key` over
`["major", "maj", "minor", "min", "m"]` (first match wins, then strip). -/
def keySuffixStrip (key : Str) : Str :=
  if strEndsWith (pyLower key) (str "major") then pyStrip (key.take (key.length - 5))
  else if strEndsWith (pyLower key) (str "maj") then pyStrip (key.take (key.length - 3))
  else if strEndsWith (pyLower key) (str "minor") then pyStrip (key.take (key.length - 5))
  else if strEndsWith (pyLower key) (str "min") then pyStrip (key.take (key.length - 3))
  else if strEndsWith (pyLower key) (str "m") then pyStrip (key.take (key.length - 1))
  else key

/-- The `key_map` dictionary of `_normalize_key`. -/
def keyMap : List (Str × MusicalKey) :=
  [ (str "C", .C),
    (str "G", .G), (str "D", .D), (str "A", .A), (str "E", .E), (str "B", .B),
    (str "F#", .Fsharp), (str "F♯", .Fsharp),
    (str "Gb", .Gflat), (str "G♭", .Gflat),
    (str "C#", .Csharp), (str "C♯", .Csharp),
    (str "Db", .Dflat), (str "D♭", .Dflat),
    (str "F", .F),
    (str "Bb", .Bflat), (str "B♭", .Bflat),
    (str "Eb", .Eflat), (str "E♭", .Eflat),
    (str "Ab", .Aflat), (str "A♭", .Aflat),
    (str "D#", .Dsharp), (str "D♯", .Dsharp),
    (str "G#", .Gsharp), (str "G♯", .Gsharp),
    (str "A#", .Asharp), (str "A♯", .Asharp) ]

/-- `BaseSongParser._normalize_key`. -/
def normalizeKey (keyStr : Option Str) : Option MusicalKey :=
  match keyStr with
  | none => none
  | some ks =>
    if ks = [] then none
    else keyMap.lookup (keySuffixStrip (pyStrip ks))

/-- `BaseSongParser._extract_title_from_filename`. -/
def extractTitleFromFilename (filename : Str) : Str :=
  let name := dropExt filename
  let name := replaceChar (replaceChar name '_' ' ') '-' ' '
  pyTitle (joinSpaces (pySplitWs name))

/-- `BaseSongParser._extract_chords` (`CHORD_PATTERN.findall`). -/
def extractChords (content : Str) : List Str :=
  (reFinditer chordRE 0 content).map (fun h => (groupGet h.2.2 1).getD [])

/-- `BaseSongParser._detect_key_from_chords`. -/
def detectKeyFromChords (chords : List Str) :
    Option MusicalKey × Option KeyConfidence :=
  if chords = [] then (none, none)
  else
    let r := detectKey chords
    (r.detectedKey, if r.detectedKey.isSome then some r.confidence else none)

/-- `BaseSongParser._normalize_sections`. -/
def normalizeSections (lyrics : Str) : Str × Bool :=
  if lyrics = [] ∨ pyStrip lyrics = [] then (lyrics, false)
  else
    let r := detectSections lyrics
    if r.hadExistingMarkers ∨ r.sections ≠ [] then
      (r.normalizedContent, r.hadExistingMarkers)
    else (lyrics, false)

/-! ### ChordPro parser (`chordpro_parser.py`) -/

/-- `ChordProParser.CHORDPRO_EXTENSIONS`. -/
def chordproExtensions : List Str :=
  [str "cho", str "crd", str "chopro", str "chordpro", str "chord", str "pro"]

/-- `ChordProParser.can_parse`. -/
def chordproCanParse (content filename : Str) : Bool :=
  chordproExtensions.contains (extOf filename) ||
    (reSearch directiveRE 0 content).isSome

/-- The directives of `content` in document order, as
`(directive, raw value)` pairs (`DIRECTIVE_PATTERN.finditer`). -/
def directivesOf (content : Str) : List (Str × Str) :=
  (reFinditer directiveRE 0 content).map
    (fun h => ((groupGet h.2.2 1).getD [], (groupGet h.2.2 2).getD []))

/-- The mutable state of the directive loop in `ChordProParser.parse`. -/
structure CPState where
  title : Option Str := none
  artist : Option Str := none
  key : Option Str := none
  tempo : Option Nat := none
  notesParts : List Str := []
deriving DecidableEq, Repr

/-- One iteration of the directive loop of `ChordProParser.parse`. -/
def chordproStep (st : CPState) (dv : Str × Str) : CPState :=
  let directive := pyLower dv.1
  let value := pyStrip dv.2
  if directive = str "title" ∨ directive = str "t" then
    if optFalsy st.title then { st with title := some value } else st
  else if directive = str "artist" ∨ directive = str "a" then
    if optFalsy st.artist then { st with artist := some value } else st
  else if directive = str "subtitle" ∨ directive = str "st" then
    if optFalsy st.artist then { st with artist := some value } else st
  else if directive = str "composer" then
    { st with notesParts := st.notesParts ++ [str "Composer: " ++ value] }
  else if directive = str "key" then { st with key := some value }
  else if directive = str "tempo" then
    match reSearch digitsRE 0 value with
    | some (_, _, g) =>
      let tv := digitsToNat ((groupGet g 1).getD [])
      if 20 ≤ tv ∧ tv ≤ 300 then { st with tempo := some tv } else st
    | none => st
  else if directive = str "capo" then
    { st with notesParts := st.notesParts ++ [str "Capo: " ++ value] }
  else if directive = str "duration" then
    { st with notesParts := st.notesParts ++ [str "Duration: " ++ value] }
  else if directive = str "comment" ∨ directive = str "c" then
    { st with notesParts := st.notesParts ++ [value] }
  else if directive = str "copyright" then
    { st with notesParts := st.notesParts ++ [str "Copyright: " ++ value] }
  else st

/-- The final directive-loop state of `ChordProParser.parse`. -/
def chordproState (content : Str) : CPState :=
  (directivesOf content).foldl chordproStep {}

/-- The blank-line collapsing loop shared by several extractors; `isBlank`
is the per-parser blankness test. -/
def collapseBlankBy (isBlank : Str → Bool) : List Str → Bool → List Str
  | [], _ => []
  | l :: rest, prevBlank =>
    if isBlank l ∧ prevBlank then collapseBlankBy isBlank rest prevBlank
    else l :: collapseBlankBy isBlank rest (isBlank l)

/-- `ChordProParser._extract_lyrics`. -/
def chordproExtractLyrics (content : Str) : Str :=
  let text := reSub chordRE [] content
  let text := reSub directiveBlockRE [] text
  let lines := (splitLines text).map pyStrip
  pyStrip (joinLines (collapseBlankBy List.isEmpty lines false))

/-- `ChordProParser.parse`. -/
def chordproParse (content filename : Str) : ParseResult :=
  let st := chordproState content
  let title := if optFalsy st.title then extractTitleFromFilename filename
    else st.title.getD []
  let lyrics := chordproExtractLyrics content
  let sn := normalizeSections lyrics
  let chords := extractChords content
  let dk := detectKeyFromChords chords
  let notes := if st.notesParts ≠ [] then some (joinLines st.notesParts) else none
  let specifiedKey := normalizeKey st.key
  let finalKey := if specifiedKey.isSome then specifiedKey else dk.1
  match buildSongData title st.artist finalKey st.tempo (some sn.1) (some content)
      notes with
  | .ok sd =>
    { success := true, songData := some sd, detectedFormat := str "chordpro",
      specifiedKey := specifiedKey, detectedKey := dk.1, keyConfidence := dk.2,
      sectionsNormalized := sn.2 }
  | .error e =>
    { success := false, error := some (str "Failed to parse ChordPro: " ++ e),
      detectedFormat := str "chordpro" }

/-! ### PlainText parser (`plaintext_parser.py`) -/

/-- `PlainTextParser.TITLE_PATTERNS` (MULTILINE, IGNORECASE). -/
def plainTitleREs : List RE :=
  [ catRE [litIRE "title:", .starG pyIsSpace, .grp 1 (.plusG isDotChar), .eol],
    catRE [litIRE "song:", .starG pyIsSpace, .grp 1 (.plusG isDotChar), .eol],
    catRE [litIRE "name:", .starG pyIsSpace, .grp 1 (.plusG isDotChar), .eol] ]

/-- `PlainTextParser.ARTIST_PATTERNS`. -/
def plainArtistREs : List RE :=
  [ catRE [litIRE "artist:", .starG pyIsSpace, .grp 1 (.plusG isDotChar), .eol],
    catRE [litIRE "by:", .starG pyIsSpace, .grp 1 (.plusG isDotChar), .eol],
    catRE [litIRE "author:", .starG pyIsSpace, .grp 1 (.plusG isDotChar), .eol],
    catRE [litIRE "performer:", .starG pyIsSpace, .grp 1 (.plusG isDotChar), .eol] ]

/-- `PlainTextParser.KEY_PATTERNS` (`^key:\s*(.+)$` and `^key\s+of\s+(.+)$`). -/
def plainKeyREs : List RE :=
  [ catRE [litIRE "key:", .starG pyIsSpace, .grp 1 (.plusG isDotChar), .eol],
    catRE [litIRE "key", .plusG pyIsSpace, litIRE "of", .plusG pyIsSpace,
      .grp 1 (.plusG isDotChar), .eol] ]

/-- `PlainTextParser.TEMPO_PATTERNS` (`^tempo:\s*(\d+)` and `^bpm:\s*(\d+)`,
no end anchor). -/
def plainTempoREs : List RE :=
  [ catRE [litIRE "tempo:", .starG pyIsSpace, .grp 1 (.plusG Char.isDigit)],
    catRE [litIRE "bpm:", .starG pyIsSpace, .grp 1 (.plusG Char.isDigit)] ]

/-- `PlainTextParser._extract_pattern`: first matching pattern's stripped
group 1. -/
def extractFirst (content : Str) : List RE → Option Str
  | [] => none
  | p :: rest =>
    match reSearchML p 0 true content with
    | some (_, _, g) => some (pyStrip ((groupGet g 1).getD []))
    | none => extractFirst content rest

/-- `PlainTextParser._remove_metadata_lines`: substitute every metadata
pattern with the empty string, in declaration order. -/
def removeMetadataLines (content : Str) : Str :=
  (plainTitleREs ++ plainArtistREs ++ plainKeyREs ++ plainTempoREs).foldl
    (fun s p => reSubML p [] true s) content

/-- `PlainTextParser._is_chord_line` (shared verbatim by the Ultimate Guitar
parser). -/
def isChordLine (line : Str) : Bool :=
  if pyStrip line = [] then false
  else if (reMatch chordLineRE line).isNone then false
  else (reSearch singleChordRE 0 line).isSome

/-- `PlainTextParser._infer_title`: first usable line among the first five,
else the filename-derived title. -/
def inferTitle (content filename : Str) : Str :=
  go ((splitLines content).take 5)
where
  go : List Str → Str
  | [] => extractTitleFromFilename filename
  | l :: rest =>
    let line := pyStrip l
    if line = [] then go rest
    else if isChordLine line then go rest
    else if strStartsWith line (str "[") ∧ strEndsWith line (str "]") then go rest
    else if line.length ≤ 100 then line
    else go rest

/-- The chord-insertion loop of `_merge_chord_with_lyric` (offset-adjusted
insertion of `[chord]` at each chord's column). -/
def insertChordsGo : Str → Nat → List (Nat × Str) → Str
  | result, _, [] => result
  | result, offset, (pos, chord) :: rest =>
    let ip := min (pos + offset) result.length
    let markup := '[' :: (chord ++ [']'])
    insertChordsGo (result.take ip ++ markup ++ result.drop ip)
      (offset + markup.length) rest

/-- `PlainTextParser._merge_chord_with_lyric` (`SINGLE_CHORD_PATTERN`
matches, ascending positions). -/
def mergeChordWithLyric (chordLine lyricLine : Str) : Str :=
  let chords := (reFinditer singleChordRE 0 chordLine).map (fun h => (h.1, h.2.1))
  if chords = [] then pyRStrip lyricLine
  else insertChordsGo (pyRStrip lyricLine) 0 chords

/-- The line loop of `PlainTextParser._detect_and_convert_chords`. -/
def dccGo : List Str → List Str × Bool
  | [] => ([], false)
  | [line] => ([line], false)
  | line :: next :: rest2 =>
    if isChordLine line ∧ ¬ isChordLine next ∧ pyStrip next ≠ [] then
      let acc := dccGo rest2
      (mergeChordWithLyric line next :: acc.1, true)
    else
      let acc := dccGo (next :: rest2)
      (line :: acc.1, acc.2)

/-- `PlainTextParser._detect_and_convert_chords`. -/
def detectAndConvertChords (content : Str) : Bool × Str :=
  let acc := dccGo (splitLines content)
  (acc.2, joinLines acc.1)

/-- `PlainTextParser._extract_plain_lyrics`: chord lines are skipped either
way, the rest is rstripped, blank runs collapsed, and the result stripped. -/
def extractPlainLyrics (content : Str) : Str :=
  let ls := ((splitLines content).filter (fun l => ¬ isChordLine l)).map pyRStrip
  pyStrip (joinLines (collapseBlankBy (fun l => (pyStrip l).isEmpty) ls false))

/-- The title the PlainText parser ends up using. -/
def plaintextTitleUsed (content filename : Str) : Str :=
  let title := extractFirst content plainTitleREs
  if optFalsy title then inferTitle (removeMetadataLines content) filename
  else title.getD []

/-- `PlainTextParser.parse`. -/
def plaintextParse (content filename : Str) : ParseResult :=
  let artist := extractFirst content plainArtistREs
  let key := extractFirst content plainKeyREs
  let tempoStr := extractFirst content plainTempoREs
  let tempo := match tempoStr with
    | some ts =>
      let tv := digitsToNat ts
      if 20 ≤ tv ∧ tv ≤ 300 then some tv else none
    | none => none
  let cleaned := removeMetadataLines content
  let title := plaintextTitleUsed content filename
  let hc := detectAndConvertChords cleaned
  let lyrics := extractPlainLyrics cleaned
  let sn := normalizeSections lyrics
  let chords := if hc.1 then extractChords hc.2 else []
  let dk := detectKeyFromChords chords
  let specifiedKey := normalizeKey key
  let finalKey := if specifiedKey.isSome then specifiedKey else dk.1
  match buildSongData title artist finalKey tempo (some sn.1)
      (if hc.1 then some hc.2 else none) none with
  | .ok sd =>
    { success := true, songData := some sd, detectedFormat := str "plaintext",
      specifiedKey := specifiedKey, detectedKey := dk.1, keyConfidence := dk.2,
      sectionsNormalized := sn.2 }
  | .error e =>
    { success := false, error := some (str "Failed to parse plain text: " ++ e),
      detectedFormat := str "plaintext" }

/-! ### OnSong parser (`onsong_parser.py`) -/

/-- `OnSongParser.METADATA_PATTERN` (MULTILINE, IGNORECASE). -/
def onsongMetadataRE : RE :=
  catRE [.grp 1 (altRE [litIRE "Key", litIRE "Tempo", litIRE "Time", litIRE "Capo",
      litIRE "CCLI", litIRE "Copyright", litIRE "Duration", litIRE "Flow"]),
    chrRE ':', .starG pyIsSpace, .grp 2 (.plusG isDotChar), .eol]

/-- `OnSongParser.SECTION_PATTERN` (MULTILINE, IGNORECASE). -/
def onsongSectionRE : RE :=
  catRE [.grp 1 (altRE [litIRE "Verse", litIRE "Chorus", litIRE "Bridge",
      catRE [litIRE "Pre", .opt (chrRE '-'), litIRE "Chorus"],
      litIRE "Tag", litIRE "Intro", litIRE "Outro", litIRE "Interlude",
      litIRE "Instrumental", litIRE "Ending", litIRE "Coda", litIRE "Refrain",
      litIRE "Hook", litIRE "Vamp", litIRE "Turnaround"]),
    .grp 2 (catRE [.starG pyIsSpace, .starG Char.isDigit]),
    .starG pyIsSpace, .opt (chrRE ':'), .starG pyIsSpace, .eol]

/-- `OnSongParser.ARTIST_PREFIXES`: `^(by|artist:?)\s+` (IGNORECASE). -/
def onsongArtistPrefixRE : RE :=
  catRE [.grp 1 (altRE [litIRE "by", catRE [litIRE "artist", .opt (chrRE ':')]]),
    .plusG pyIsSpace]

/-- The ChordPro-directive check of `OnSongParser.can_parse`:
`\{(title|artist|key|t|a):` (IGNORECASE). -/
def chordproHintRE : RE :=
  catRE [chrRE lbrace,
    .grp 1 (altRE [litIRE "title", litIRE "artist", litIRE "key", litIRE "t",
      litIRE "a"]),
    chrRE ':']

/-- `OnSongParser.can_parse`. -/
def onsongCanParse (content filename : Str) : Bool :=
  if extOf filename = str "onsong" then true
  else if (reSearch chordproHintRE 0 content).isSome then false
  else
    (reSearchML onsongMetadataRE 0 true content).isSome &&
    (reSearchML onsongSectionRE 0 true content).isSome &&
    (reSearch chordRE 0 content).isSome

/-- The mutable state of the metadata loop in `OnSongParser.parse`. -/
structure OSState where
  key : Option Str := none
  tempo : Option Nat := none
  notesParts : List Str := []
  songLines : List Str := []
  metadataEnded : Bool := false
deriving DecidableEq, Repr

/-- One iteration of the remaining-line loop of `OnSongParser.parse`. -/
def onsongLineStep (st : OSState) (line : Str) : OSState :=
  let stripped := pyStrip line
  match reMatch onsongMetadataRE stripped with
  | some (_, g) =>
    if ¬ st.metadataEnded then
      let metaKey := pyLower ((groupGet g 1).getD [])
      let metaValue := pyStrip ((groupGet g 2).getD [])
      if metaKey = str "key" then { st with key := some metaValue }
      else if metaKey = str "tempo" then
        match reSearch digitsRE 0 metaValue with
        | some (_, _, g') =>
          let tv := digitsToNat ((groupGet g' 1).getD [])
          if 20 ≤ tv ∧ tv ≤ 300 then { st with tempo := some tv } else st
        | none => st
      else if metaKey = str "capo" then
        { st with notesParts := st.notesParts ++ [str "Capo: " ++ metaValue] }
      else if metaKey = str "time" then
        { st with notesParts := st.notesParts ++ [str "Time: " ++ metaValue] }
      else if metaKey = str "ccli" then
        { st with notesParts := st.notesParts ++ [str "CCLI: " ++ metaValue] }
      else if metaKey = str "copyright" then
        { st with notesParts := st.notesParts ++ [str "Copyright: " ++ metaValue] }
      else st
    else
      -- a metadata-shaped line after metadata ended is added to the song body;
      -- the `metadata_ended` update condition has `not meta_match`, hence stays
      { st with songLines := st.songLines ++ [line] }
  | none =>
    let ended := st.metadataEnded ||
      (reMatch onsongSectionRE stripped).isSome ||
      (reSearch chordRE 0 stripped).isSome ||
      (stripped ≠ [])
    { st with metadataEnded := ended, songLines := st.songLines ++ [line] }

/-- `f"{section_name}{section_num}"` of the OnSong section handling:
`group(1).title()` concatenated with `group(2).strip()` (empty when group 2
is empty). -/
def onsongSectionText (g : Groups) : Str :=
  pyTitle ((groupGet g 1).getD []) ++ pyStrip ((groupGet g 2).getD [])

/-- `OnSongParser._convert_to_chordpro`. -/
def onsongConvertToChordpro (title artist key : Option Str) (tempo : Option Nat)
    (songLines : List Str) : Str :=
  let metaLines : List Str :=
    (if optFalsy title then []
      else [lbrace :: (str "title: " ++ title.getD [] ++ [rbrace])]) ++
    (if optFalsy artist then []
      else [lbrace :: (str "artist: " ++ artist.getD [] ++ [rbrace])]) ++
    (if optFalsy key then []
      else [lbrace :: (str "key: " ++ key.getD [] ++ [rbrace])]) ++
    (match tempo with
      | some t => if t = 0 then [] else [lbrace :: (str "tempo: " ++ natToStr t ++ [rbrace])]
      | none => [])
  let metaLines := if metaLines ≠ [] then metaLines ++ [[]] else metaLines
  let bodyLines := songLines.map (fun line =>
    let stripped := pyStrip line
    match reMatch onsongSectionRE stripped with
    | some (_, g) => lbrace :: (str "comment: " ++ onsongSectionText g ++ [rbrace])
    | none => stripped)
  joinLines (metaLines ++ bodyLines)

/-- `OnSongParser._extract_lyrics`. -/
def onsongExtractLyrics (songLines : List Str) : Str :=
  let processed := songLines.filterMap (fun line =>
    let stripped := pyStrip line
    if (reMatch onsongMetadataRE stripped).isSome then none
    else
      match reMatch onsongSectionRE stripped with
      | some (_, g) => some ('[' :: (onsongSectionText g ++ [']']))
      | none => some (reSub chordRE [] stripped))
  pyStrip (joinLines (collapseBlankBy List.isEmpty processed false))

/-- The title/artist header scan of `OnSongParser.parse`: skip leading blank
lines, take the first non-blank line as title, then inspect the next line
for an artist; returns `(title, artist, remaining lines)`. -/
def onsongHeader (lines : List Str) : Option Str × Option Str × List Str :=
  let afterBlank := lines.dropWhile (fun l => pyStrip l = [])
  match afterBlank with
  | [] => (none, none, [])
  | t :: rest =>
    let title := some (pyStrip t)
    match rest with
    | [] => (title, none, [])
    | n :: rest2 =>
      let next := pyStrip n
      if strStartsWith next (str "(") ∧ strEndsWith next (str ")") then
        (title, some (pyStrip (next.drop 1 |>.take (next.length - 2))), rest2)
      else
        match reMatch onsongArtistPrefixRE next with
        | some (nconsumed, _) => (title, some (pyStrip (next.drop nconsumed)), rest2)
        | none =>
          if (reMatch onsongMetadataRE next).isNone ∧
              (reMatch onsongSectionRE next).isNone ∧
              (reSearch chordRE 0 next).isNone ∧ next ≠ [] then
            (title, some next, rest2)
          else (title, none, rest)

/-- `OnSongParser.parse`. -/
def onsongParse (content filename : Str) : ParseResult :=
  let lines := splitLines content
  let (title0, artist, remaining) := onsongHeader lines
  let st := remaining.foldl onsongLineStep {}
  let title := if optFalsy title0 then extractTitleFromFilename filename
    else title0.getD []
  let chart := onsongConvertToChordpro (some title) artist st.key st.tempo st.songLines
  let lyrics := onsongExtractLyrics st.songLines
  let sn := normalizeSections lyrics
  let chords := extractChords (joinLines st.songLines)
  let dk := detectKeyFromChords chords
  let notes := if st.notesParts ≠ [] then some (joinLines st.notesParts) else none
  let specifiedKey := normalizeKey st.key
  let finalKey := if specifiedKey.isSome then specifiedKey else dk.1
  match buildSongData title artist finalKey st.tempo (some sn.1) (some chart)
      notes with
  | .ok sd =>
    { success := true, songData := some sd, detectedFormat := str "onsong",
      specifiedKey := specifiedKey, detectedKey := dk.1, keyConfidence := dk.2,
      sectionsNormalized := sn.2 }
  | .error e =>
    { success := false, error := some (str "Failed to parse OnSong: " ++ e),
      detectedFormat := str "onsong" }

/-! ### Ultimate Guitar parser (`ultimateguitar_parser.py`) -/

/-- `UltimateGuitarParser.CAPO_PATTERN`: `^capo[:\s]+(\d+)` (MULTILINE,
IGNORECASE). -/
def ugCapoRE : RE :=
  catRE [litIRE "capo", .plusG (fun c => c = ':' || pyIsSpace c),
    .grp 1 (.plusG Char.isDigit)]

/-- `UltimateGuitarParser.TUNING_PATTERN`: `^tuning[:\s]+([A-Ga-g#b\s]+)`. -/
def ugTuningRE : RE :=
  catRE [litIRE "tuning", .plusG (fun c => c = ':' || pyIsSpace c),
    .grp 1 (.plusG (fun c => isNoteLetter c || c = '#' || c = 'b' || pyIsSpace c))]

/-- `UltimateGuitarParser.KEY_PATTERN`: `^key[:\s]+([A-G][#b]?m?)`
(IGNORECASE also widens the classes). -/
def ugKeyRE : RE :=
  catRE [litIRE "key", .plusG (fun c => c = ':' || pyIsSpace c),
    .grp 1 (catRE [.cls isNoteLetter,
      .opt (.cls (fun c => c = '#' || c.toLower = 'b')),
      .opt (.cls (fun c => c.toLower = 'm'))])]

/-- `UltimateGuitarParser.SECTION_PATTERN`:
`^\[?(Verse|Chorus|Bridge|Intro|Outro|Pre-Chorus|Interlude|Solo|Hook|Refrain)(?:\s*\d+)?\]?$`. -/
def ugSectionRE : RE :=
  catRE [.opt (chrRE '['),
    .grp 1 (altRE [litIRE "Verse", litIRE "Chorus", litIRE "Bridge",
      litIRE "Intro", litIRE "Outro", litIRE "Pre-Chorus", litIRE "Interlude",
      litIRE "Solo", litIRE "Hook", litIRE "Refrain"]),
    .opt (catRE [.starG pyIsSpace, .plusG Char.isDigit]),
    .opt (chrRE ']'), .eol]

/-- `UltimateGuitarParser.TITLE_PATTERNS[0]`:
`^(.+)\s+(?:by|[-–—])\s+(.+)$` (MULTILINE, case-sensitive). -/
def ugTitleByRE : RE :=
  catRE [.grp 1 (.plusG isDotChar), .plusG pyIsSpace,
    altRE [litRE "by", .cls (fun c => c = '-' || c = '–' || c = '—')],
    .plusG pyIsSpace, .grp 2 (.plusG isDotChar), .eol]

/-- `^title[:\s]+(.+)$` (MULTILINE, IGNORECASE). -/
def ugTitleTitleRE : RE :=
  catRE [litIRE "title", .plusG (fun c => c = ':' || pyIsSpace c),
    .grp 1 (.plusG isDotChar), .eol]

/-- `^song[:\s]+(.+)$` (MULTILINE, IGNORECASE). -/
def ugTitleSongRE : RE :=
  catRE [litIRE "song", .plusG (fun c => c = ':' || pyIsSpace c),
    .grp 1 (.plusG isDotChar), .eol]

/-- `UltimateGuitarParser.ARTIST_PATTERN`: `^artist[:\s]+(.+)$`. -/
def ugArtistRE : RE :=
  catRE [litIRE "artist", .plusG (fun c => c = ':' || pyIsSpace c),
    .grp 1 (.plusG isDotChar), .eol]

/-- `UltimateGuitarParser.can_parse`. -/
def ugCanParse (content filename : Str) : Bool :=
  let contentLower := pyLower content
  let filenameLower := pyLower filename
  if strContains filenameLower (str "ultimate") ||
      strContains filenameLower (str "_ug") ||
      strContains filenameLower (str "-ug") then true
  else if (reSearchML ugCapoRE 0 true content).isSome then true
  else if (reSearchML ugTuningRE 0 true content).isSome then true
  else if strContains contentLower (str "[tab]") ||
      strContains contentLower (str "[/tab]") then true
  else
    if 2 ≤ (reFinditerML ugSectionRE 0 true content).length then
      2 ≤ ((splitLines content).filter isChordLine).length
    else false

/-- The metadata prefixes skipped by `_remove_metadata_lines` and
`_infer_title_from_content`. -/
def ugMetadataPrefixes : List Str :=
  [str "capo", str "tuning", str "key", str "tempo", str "bpm", str "title",
    str "artist", str "song", str "difficulty"]

/-- `lines.index(line)`: index of the first occurrence of the value. -/
def firstIndexOf (lines : List Str) (line : Str) : Nat :=
  ((lines.findIdx? (· = line)).getD lines.length)

/-- `UltimateGuitarParser._remove_metadata_lines`. -/
def ugRemoveMetadataLines (content : Str) : Str :=
  let lines := splitLines content
  joinLines (lines.filter (fun line =>
    let stripped := pyLower (pyStrip line)
    let skipMeta := ugMetadataPrefixes.any (fun p =>
      strStartsWith stripped (p ++ [':']) || strStartsWith stripped (p ++ [' ']))
    let skipBy := ¬ skipMeta ∧ strContains (pyLower line) (str " by ") ∧
      firstIndexOf lines line < 3 ∧ ¬ isChordLine line
    let skipTab := stripped = str "[tab]" ∨ stripped = str "[/tab]"
    ¬ (skipMeta ∨ skipBy ∨ skipTab)))

/-- `UltimateGuitarParser._infer_title_from_content`. -/
def ugInferTitle (content filename : Str) : Str :=
  go ((splitLines content).take 10)
where
  go : List Str → Str
  | [] => extractTitleFromFilename filename
  | l :: rest =>
    let line := pyStrip l
    if line = [] then go rest
    else if strContains line (str ":") ∧
        ugMetadataPrefixes.contains (pyLower (line.takeWhile (· ≠ ':'))) then
      go rest
    else if isChordLine line then go rest
    else if (reMatch ugSectionRE line).isSome then go rest
    else if pyLower line = str "[tab]" ∨ pyLower line = str "[/tab]" then go rest
    else if line.length ≤ 100 then line
    else go rest

/-- `UltimateGuitarParser._extract_title_artist`. -/
def ugExtractTitleArtist (content filename : Str) : Str × Option Str :=
  match reSearchML ugTitleByRE 0 true content with
  | some (_, _, g) =>
    (pyStrip ((groupGet g 1).getD []), some (pyStrip ((groupGet g 2).getD [])))
  | none =>
    let title :=
      match reSearchML ugTitleTitleRE 0 true content with
      | some (_, _, g) => some (pyStrip ((groupGet g 1).getD []))
      | none =>
        match reSearchML ugTitleSongRE 0 true content with
        | some (_, _, g) => some (pyStrip ((groupGet g 1).getD []))
        | none => none
    let artist :=
      match reSearchML ugArtistRE 0 true content with
      | some (_, _, g) => some (pyStrip ((groupGet g 1).getD []))
      | none => none
    match title with
    | some t => (t, artist)
    | none => (ugInferTitle content filename, artist)

/-- `UltimateGuitarParser._extract_capo`. -/
def ugExtractCapo (content : Str) : Option Nat :=
  match reSearchML ugCapoRE 0 true content with
  | some (_, _, g) =>
    let capo := digitsToNat ((groupGet g 1).getD [])
    if 1 ≤ capo ∧ capo ≤ 12 then some capo else none
  | none => none

/-- `UltimateGuitarParser._extract_tuning`. -/
def ugExtractTuning (content : Str) : Option Str :=
  match reSearchML ugTuningRE 0 true content with
  | some (_, _, g) =>
    let tuning := pyStrip ((groupGet g 1).getD [])
    if pyLower tuning ≠ str "standard" then some tuning else none
  | none => none

/-- `UltimateGuitarParser._extract_key`. -/
def ugExtractKey (content : Str) : Option Str :=
  match reSearchML ugKeyRE 0 true content with
  | some (_, _, g) => some (pyStrip ((groupGet g 1).getD []))
  | none => none

/-- The line loop of `UltimateGuitarParser._convert_to_chordpro` (like the
PlainText conversion but without a `has_chords` flag). -/
def ugConvertGo : List Str → List Str
  | [] => []
  | [line] => [line]
  | line :: next :: rest2 =>
    if isChordLine line ∧ ¬ isChordLine next ∧ pyStrip next ≠ [] then
      mergeChordWithLyric line next :: ugConvertGo rest2
    else line :: ugConvertGo (next :: rest2)

/-- `UltimateGuitarParser._convert_to_chordpro`. -/
def ugConvertToChordpro (content : Str) : Str :=
  joinLines (ugConvertGo (splitLines content))

/-- `UltimateGuitarParser._extract_plain_lyrics`. -/
def ugExtractPlainLyrics (content : Str) : Str :=
  let ls := ((splitLines content).filter (fun l => ¬ isChordLine l)).map pyRStrip
  pyStrip (joinLines (collapseBlankBy (fun l => (pyStrip l).isEmpty) ls false))

/-- `UltimateGuitarParser.parse`. -/
def ugParse (content filename : Str) : ParseResult :=
  let ta := ugExtractTitleArtist content filename
  let capo := ugExtractCapo content
  let tuning := ugExtractTuning content
  let key := ugExtractKey content
  let cleaned := ugRemoveMetadataLines content
  let chart := ugConvertToChordpro cleaned
  let lyrics := ugExtractPlainLyrics cleaned
  let sn := normalizeSections lyrics
  let chords := extractChords chart
  let dk := detectKeyFromChords chords
  let notesParts :=
    (match capo with
      | some c => [str "Capo: " ++ natToStr c]
      | none => []) ++
    (match tuning with
      | some t => if t = [] then [] else [str "Tuning: " ++ t]
      | none => [])
  let notes := if notesParts ≠ [] then some (joinLines notesParts) else none
  let specifiedKey := normalizeKey key
  let finalKey := if specifiedKey.isSome then specifiedKey else dk.1
  match buildSongData ta.1 ta.2 finalKey none (some sn.1) (some chart) notes with
  | .ok sd =>
    { success := true, songData := some sd,
      detectedFormat := str "ultimateguitar",
      specifiedKey := specifiedKey, detectedKey := dk.1, keyConfidence := dk.2,
      sectionsNormalized := sn.2 }
  | .error e =>
    { success := false,
      error := some (str "Failed to parse Ultimate Guitar format: " ++ e),
      detectedFormat := str "ultimateguitar" }

/-! ### A model of `xml.etree.ElementTree.fromstring`

Covers the fragment the import formats use: an optional XML declaration,
nested elements with double- or single-quoted attributes, character data and
tails, and a default `xmlns` namespace (element tags are qualified as
Python's ElementTree does).  Entity references, CDATA sections, comments and
processing instructions inside the document are not modelled; the error
strings stand in for `ET.ParseError` messages. -/

/-- An ElementTree element: tag (namespace-qualified), attributes, the text
before the first child, the children, and the tail text after the closing
tag inside the parent. -/
inductive XmlNode where
  | mk (tag : Str) (attrs : List (Str × Str)) (text : Str)
      (children : List XmlNode) (tail : Str)
deriving Repr

/-- Element tag. -/
def XmlNode.tag : XmlNode → Str
  | .mk t _ _ _ _ => t

/-- Element attributes. -/
def XmlNode.attrs : XmlNode → List (Str × Str)
  | .mk _ a _ _ _ => a

/-- `elem.text` (empty for Python's `None`; both are falsy where consulted). -/
def XmlNode.text : XmlNode → Str
  | .mk _ _ t _ _ => t

/-- Child elements. -/
def XmlNode.children : XmlNode → List XmlNode
  | .mk _ _ _ c _ => c

/-- `elem.tail` (empty for Python's `None`). -/
def XmlNode.tail : XmlNode → Str
  | .mk _ _ _ _ t => t

/-- `elem.get(name, default)`. -/
def XmlNode.getAttr (n : XmlNode) (name : Str) : Option Str :=
  n.attrs.lookup name

/-- `elem.find(tag)`: first direct child with the tag. -/
def XmlNode.findTag (n : XmlNode) (tag : Str) : Option XmlNode :=
  n.children.find? (fun c => c.tag = tag)

/-- `elem.findall(tag)`. -/
def XmlNode.findAllTag (n : XmlNode) (tag : Str) : List XmlNode :=
  n.children.filter (fun c => c.tag = tag)

/-- A character allowed in an element or attribute name. -/
def xmlNameChar (c : Char) : Bool :=
  c.isAlphanum || c = ':' || c = '-' || c = '_' || c = '.'

/-- Attribute-list parsing: `name="value"` pairs up to `>` or `/>`. -/
def xmlParseAttrs : Nat → Str → Except Str (List (Str × Str) × Str)
  | 0, _ => .error (str "not well-formed (attributes)")
  | fuel + 1, s =>
    let s := pyLStrip s
    match s with
    | [] => .error (str "unclosed token")
    | '>' :: _ => .ok ([], s)
    | '/' :: _ => .ok ([], s)
    | _ =>
      let name := s.takeWhile xmlNameChar
      if name = [] then .error (str "not well-formed (invalid token)")
      else
        let s1 := pyLStrip (s.drop name.length)
        match s1 with
        | '=' :: s2 =>
          let s2 := pyLStrip s2
          match s2 with
          | q :: s3 =>
            if q = '"' ∨ q = '\'' then
              let value := s3.takeWhile (· ≠ q)
              let s4 := s3.drop value.length
              match s4 with
              | _ :: s5 =>
                match xmlParseAttrs fuel s5 with
                | .ok (rest, s6) => .ok ((name, value) :: rest, s6)
                | .error e => .error e
              | [] => .error (str "unclosed token")
            else .error (str "not well-formed (invalid token)")
          | [] => .error (str "unclosed token")
        | _ => .error (str "not well-formed (invalid token)")

mutual

/-- Parse one element starting at `<`; returns the node and the remainder
after its closing tag.  `ns` is the inherited default namespace. -/
def xmlParseElem : Nat → Str → Str → Except Str (XmlNode × Str)
  | 0, _, _ => .error (str "not well-formed (document too deep)")
  | fuel + 1, ns, s =>
    match s with
    | '<' :: rest =>
      let name := rest.takeWhile xmlNameChar
      if name = [] then .error (str "not well-formed (invalid token)")
      else
        match xmlParseAttrs (rest.length + 1) (rest.drop name.length) with
        | .error e => .error e
        | .ok (attrs, s1) =>
          let ns' := (attrs.lookup (str "xmlns")).getD ns
          let tag := if ns' = [] then name
            else lbrace :: (ns' ++ rbrace :: name)
          match s1 with
          | '/' :: '>' :: s2 => .ok (.mk tag attrs [] [] [], s2)
          | '>' :: s2 =>
            let text := s2.takeWhile (· ≠ '<')
            match xmlParseChildren fuel ns' name (s2.drop text.length) [] with
            | .error e => .error e
            | .ok (children, s3) => .ok (.mk tag attrs text children [], s3)
          | _ => .error (str "not well-formed (invalid token)")
    | _ => .error (str "not well-formed (invalid token)")

/-- Parse the children and closing tag of the element named `name`. -/
def xmlParseChildren : Nat → Str → Str → Str → List XmlNode →
    Except Str (List XmlNode × Str)
  | 0, _, _, _, _ => .error (str "not well-formed (document too deep)")
  | fuel + 1, ns, name, s, acc =>
    match s with
    | '<' :: '/' :: rest =>
      let closeName := rest.takeWhile xmlNameChar
      if closeName = name then
        match pyLStrip (rest.drop closeName.length) with
        | '>' :: s2 => .ok (acc, s2)
        | _ => .error (str "not well-formed (invalid token)")
      else .error (str "mismatched tag")
    | '<' :: _ =>
      match xmlParseElem fuel ns s with
      | .error e => .error e
      | .ok (child, s1) =>
        let tailText := s1.takeWhile (· ≠ '<')
        let child' := match child with
          | .mk t a te c _ => XmlNode.mk t a te c tailText
        xmlParseChildren fuel ns name (s1.drop tailText.length) (acc ++ [child'])
    | _ => .error (str "no element found")

end

/-- Skip an optional leading `<?xml … ?>` declaration. -/
def xmlSkipDecl (s : Str) : Except Str Str :=
  if strStartsWith s (str "<?") then
    match findClose s with
    | some rest => .ok rest
    | none => .error (str "unclosed token")
  else .ok s
where
  findClose : Str → Option Str
  | [] => none
  | '?' :: '>' :: rest => some rest
  | _ :: rest => findClose rest

/-- Model of `xml.etree.ElementTree.fromstring`. -/
def etFromstring (s : Str) : Except Str XmlNode :=
  match xmlSkipDecl (pyLStrip s) with
  | .error e => .error e
  | .ok s1 =>
    match xmlParseElem (s.length + 1) [] (pyLStrip s1) with
    | .error e => .error e
    | .ok (root, rest) =>
      if pyStrip rest = [] then .ok root
      else .error (str "junk after document element")

/-! ### OpenSong parser (`opensong_parser.py`) -/

/-- `OpenSongParser.can_parse`. -/
def opensongCanParse (content _filename : Str) : Bool :=
  let c := pyStrip content
  if ¬ (strStartsWith c (str "<?xml") || strStartsWith c (str "<")) then false
  else if strContains (pyLower c) (str "openlyrics") then false
  else strContains c (str "<song>") && strContains c (str "<lyrics>")

/-- `OpenSongParser._get_element_text`. -/
def getElementText (root : XmlNode) (tag : Str) : Option Str :=
  match root.findTag tag with
  | some e => if e.text = [] then none else some (pyStrip e.text)
  | none => none

/-- Python `int(...)` on a stripped decimal string (`none` models
`ValueError`). -/
def pyIntParse (s : Str) : Option Int :=
  let t := pyStrip s
  match t with
  | '-' :: ds => if ds ≠ [] ∧ ds.all Char.isDigit then some (-(digitsToNat ds : Int)) else none
  | '+' :: ds => if ds ≠ [] ∧ ds.all Char.isDigit then some (digitsToNat ds : Int) else none
  | ds => if ds ≠ [] ∧ ds.all Char.isDigit then some (digitsToNat ds : Int) else none

/-- The shared `int(tempo_str)`-and-range check of the XML parsers. -/
def tempoFromText (tempoStr : Option Str) : Option Nat :=
  match tempoStr with
  | some ts =>
    match pyIntParse ts with
    | some v => if 20 ≤ v ∧ v ≤ 300 then some v.toNat else none
    | none => none
  | none => none

/-- The chord pattern of `OpenSongParser._parse_chord_positions` /
`_extract_chords_from_line`:
`([A-G][#b♯♭]?(?:maj|min|m|dim|aug|sus[24]?|add[29]?|7|9|11|13|6)?)(?:/([A-G][#b♯♭]?))?`. -/
def osChordRE : RE :=
  catRE [.grp 1 (catRE [.cls isUpperNote, .opt (.cls isAccidental), .opt chordQualityRE]),
    .opt (catRE [chrRE '/',
      .grp 2 (catRE [.cls isUpperNote, .opt (.cls isAccidental)])])]

/-- `OpenSongParser._merge_chords_with_lyrics`. -/
def osMergeChords (chordLine lyricLine : Str) : Str :=
  let chords := (reFinditer osChordRE 0 chordLine).map (fun h => (h.1, h.2.1))
  if chords = [] then pyStrip lyricLine
  else pyStrip (insertChordsGo lyricLine 0 chords)

/-- `OpenSongParser._extract_chords_from_line`. -/
def osChordsFromLine (line : Str) : List Str :=
  (reFinditer osChordRE 0 line).map (fun h => h.2.1)

/-- `OpenSongParser._format_section_name`. -/
def osFormatSectionName (name : Str) : Str :=
  let sectionMap : List (Char × Str) :=
    [('V', str "Verse"), ('C', str "Chorus"), ('B', str "Bridge"),
      ('P', str "Pre-Chorus"), ('E', str "Ending"), ('I', str "Intro"),
      ('O', str "Outro"), ('T', str "Tag")]
  let name := pyUpper (pyStrip name)
  match name with
  | [] => name
  | letter :: number =>
    match sectionMap.lookup letter with
    | some result =>
      if number ≠ [] ∧ number.all Char.isDigit then result ++ ' ' :: number
      else result
    | none => name

/-- Is the stripped line bracketed like `[V]`? -/
def osSectionLine (line : Str) : Bool :=
  strStartsWith (pyStrip line) (str "[") ∧ strEndsWith (pyStrip line) (str "]")

/-- The chordpro lines contributed by a chord line without a following lyric
line (instrumental). -/
def osStandaloneChord (chordLine : Str) : List Str :=
  let chords := osChordsFromLine chordLine
  if chords = [] then []
  else [joinSpaces (chords.map (fun c => '[' :: (c ++ [']'])))]

/-- A section or plain line's contribution in the OpenSong conversion. -/
def osPlainStep (line : Str) : Str :=
  if osSectionLine line then
    let inner := (pyStrip line).drop 1 |>.take ((pyStrip line).length - 2)
    '[' :: (osFormatSectionName inner ++ [']'])
  else pyStrip line

/-- The line loop of `OpenSongParser._convert_opensong_to_chordpro`;
returns `(plain lines, chordpro lines, has_chords)`. -/
def osConvGo : List Str → List Str × List Str × Bool
  | [] => ([], [], false)
  | [l] =>
    let line := pyRStrip l
    if osSectionLine line then ([osPlainStep line], [osPlainStep line], false)
    else if strStartsWith line (str ".") then
      ([], osStandaloneChord (line.drop 1), true)
    else ([osPlainStep line], [osPlainStep line], false)
  | l :: n :: rest2 =>
    let line := pyRStrip l
    if osSectionLine line then
      let acc := osConvGo (n :: rest2)
      (osPlainStep line :: acc.1, osPlainStep line :: acc.2.1, acc.2.2)
    else if strStartsWith line (str ".") then
      let chordLine := line.drop 1
      let next := pyRStrip n
      if ¬ strStartsWith next (str ".") ∧ ¬ osSectionLine next then
        let acc := osConvGo rest2
        (pyStrip next :: acc.1, osMergeChords chordLine next :: acc.2.1, true)
      else
        let acc := osConvGo (n :: rest2)
        (acc.1, osStandaloneChord chordLine ++ acc.2.1, true)
    else
      let acc := osConvGo (n :: rest2)
      (osPlainStep line :: acc.1, osPlainStep line :: acc.2.1, acc.2.2)

/-- `OpenSongParser._convert_opensong_to_chordpro`. -/
def osConvert (raw : Str) : Str × Str :=
  let acc := osConvGo (splitLines raw)
  let plainText := pyStrip (joinLines acc.1)
  let chordproText := if acc.2.2 then pyStrip (joinLines acc.2.1) else plainText
  (plainText, chordproText)

/-- `OpenSongParser.parse`. -/
def opensongParse (content filename : Str) : ParseResult :=
  match etFromstring content with
  | .error e =>
    { success := false, error := some (str "Invalid XML: " ++ e),
      detectedFormat := str "opensong" }
  | .ok root =>
    let title0 := getElementText root (str "title")
    let author := getElementText root (str "author")
    let artist := if optFalsy author then getElementText root (str "artist")
      else author
    let key := getElementText root (str "key")
    let tempo := tempoFromText (getElementText root (str "tempo"))
    let notesParts :=
      (match getElementText root (str "copyright") with
        | some c => if c = [] then [] else [str "Copyright: " ++ c]
        | none => []) ++
      (match getElementText root (str "ccli") with
        | some c => if c = [] then [] else [str "CCLI: " ++ c]
        | none => []) ++
      (match getElementText root (str "theme") with
        | some t => if t = [] then [] else [str "Theme: " ++ t]
        | none => []) ++
      (match getElementText root (str "alttheme") with
        | some t => if t = [] then [] else [str "Alt Theme: " ++ t]
        | none => [])
    let rawLyrics := ((root.findTag (str "lyrics")).map XmlNode.text).getD []
    let lc := osConvert rawLyrics
    let title := if optFalsy title0 then extractTitleFromFilename filename
      else title0.getD []
    let notes := if notesParts ≠ [] then some (joinLines notesParts) else none
    match buildSongData title artist (normalizeKey key) tempo (some lc.1)
        (if lc.2 ≠ lc.1 then some lc.2 else none) notes with
    | .ok sd =>
      { success := true, songData := some sd, detectedFormat := str "opensong" }
    | .error e =>
      { success := false, error := some (str "Failed to parse OpenSong: " ++ e),
        detectedFormat := str "opensong" }

/-! ### OpenLyrics parser (`openlyrics_parser.py`) -/

/-- `OpenLyricsParser.NAMESPACE`. -/
def olNamespace : Str := str "http://openlyrics.info/namespace/2009/song"

/-- `OpenLyricsParser.can_parse`. -/
def openlyricsCanParse (content _filename : Str) : Bool :=
  let c := pyStrip content
  if ¬ (strStartsWith c (str "<?xml") || strStartsWith c (str "<")) then false
  else if strContains (pyLower c) (str "openlyrics") then true
  else strContains c (str "<song") && strContains c (str "<properties>")

/-- A tag qualified with the OpenLyrics namespace (`ol:tag` resolved through
the parser's `NS` dictionary). -/
def olQualified (tag : Str) : Str := lbrace :: (olNamespace ++ rbrace :: tag)

/-- `OpenLyricsParser._find_element`. -/
def olFindElement (parent : XmlNode) (tag : Str) (useNs : Bool) : Option XmlNode :=
  if useNs then
    match parent.findTag (olQualified tag) with
    | some e => some e
    | none => parent.findTag tag
  else parent.findTag tag

/-- `OpenLyricsParser._find_all_elements`. -/
def olFindAllElements (parent : XmlNode) (tag : Str) (useNs : Bool) : List XmlNode :=
  if useNs then
    let elems := parent.findAllTag (olQualified tag)
    if elems.isEmpty then parent.findAllTag tag else elems
  else parent.findAllTag tag

/-- The recursive `process_element` of `OpenLyricsParser._process_lines`;
returns `(plain, chordpro, has_chords)`.  The structural fuel bounds the
element-tree depth; the callers pass the source text's length, which always
suffices. -/
def olProcessElement : Nat → XmlNode → Str × Str × Bool
  | 0, _ => ([], [], false)
  | fuel + 1, elem =>
    let isChord := strEndsWith elem.tag (str "chord")
    let isBr := strEndsWith elem.tag (str "br")
    let base : Str × Str :=
      if isChord then
        let root := (elem.getAttr (str "root")).getD []
        let chordType := (elem.getAttr (str "type")).getD []
        let bass := (elem.getAttr (str "bass")).getD []
        let chord := root ++ chordType ++ (if bass ≠ [] then '/' :: bass else [])
        ([], '[' :: (chord ++ [']']))
      else if isBr then (str "\n", str "\n")
      else ([], [])
    let withText := (base.1 ++ elem.text, base.2 ++ elem.text)
    elem.children.foldl
      (fun (acc : Str × Str × Bool) child =>
        let r := olProcessElement fuel child
        let tl := child.tail
        (acc.1 ++ r.1 ++ tl, acc.2.1 ++ r.2.1 ++ tl, acc.2.2 || r.2.2))
      (withText.1, withText.2, isChord)

/-- `OpenLyricsParser._process_lines`. -/
def olProcessLines (fuel : Nat) (linesElem : XmlNode) : Str × Str × Bool :=
  let r := olProcessElement fuel linesElem
  (pyStrip r.1, pyStrip r.2.1, r.2.2)

/-- `OpenLyricsParser._format_section_name` (`([a-z])(\d*)` on the lowered
name). -/
def olFormatSectionName (name : Str) : Str :=
  let sectionMap : List (Char × Str) :=
    [('v', str "Verse"), ('c', str "Chorus"), ('b', str "Bridge"),
      ('p', str "Pre-Chorus"), ('e', str "Ending"), ('i', str "Intro"),
      ('o', str "Outro"), ('t', str "Tag")]
  match pyLower name with
  | c :: rest =>
    if 'a' ≤ c ∧ c ≤ 'z' then
      match sectionMap.lookup c with
      | some result =>
        let num := rest.takeWhile Char.isDigit
        if num ≠ [] then result ++ ' ' :: num else result
      | none => name
    else name
  | [] => name

/-- The verse loop of `OpenLyricsParser._extract_lyrics`;
returns `(plain lines, chordpro lines, has_chords)`. -/
def olVersesGo (fuel : Nat) (useNs : Bool) : List XmlNode → List Str × List Str × Bool
  | [] => ([], [], false)
  | verse :: rest =>
    let verseName := (verse.getAttr (str "name")).getD []
    let headerLines : List Str :=
      if verseName ≠ [] then
        ['[' :: (olFormatSectionName verseName ++ [']'])]
      else []
    let bodyLines : List Str × List Str × Bool :=
      match olFindElement verse (str "lines") useNs with
      | some linesElem =>
        let r := olProcessLines fuel linesElem
        ([r.1], [r.2.1], r.2.2)
      | none => ([], [], false)
    let acc := olVersesGo fuel useNs rest
    (bodyLines.1 ++ [[]] ++ acc.1,
      headerLines ++ bodyLines.2.1 ++ [[]] ++ acc.2.1,
      bodyLines.2.2 || acc.2.2)

/-- `OpenLyricsParser._extract_lyrics`. -/
def olExtractLyrics (fuel : Nat) (lyricsElem : Option XmlNode) (useNs : Bool) : Str × Str :=
  match lyricsElem with
  | none => ([], [])
  | some le =>
    let verses := olFindAllElements le (str "verse") useNs
    let acc := olVersesGo fuel useNs verses
    let plainText := pyStrip (joinLines acc.1)
    let chordproText := if acc.2.2 then pyStrip (joinLines acc.2.1) else []
    (plainText, chordproText)

/-- The author loop of `OpenLyricsParser.parse`. -/
def olAuthorsGo : List XmlNode → Option Str → List Str → Option Str × List Str
  | [], artist, notes => (artist, notes)
  | author :: rest, artist, notes =>
    if author.text ≠ [] then
      let authorType := (author.getAttr (str "type")).getD []
      if optFalsy artist ∧
          (authorType = [] ∨ authorType = str "words" ∨ authorType = str "lyrics") then
        olAuthorsGo rest (some (pyStrip author.text)) notes
      else if authorType = str "music" then
        olAuthorsGo rest artist (notes ++ [str "Music by: " ++ pyStrip author.text])
      else olAuthorsGo rest artist notes
    else olAuthorsGo rest artist notes

/-- `OpenLyricsParser.parse`. -/
def openlyricsParse (content filename : Str) : ParseResult :=
  match etFromstring content with
  | .error e =>
    { success := false, error := some (str "Invalid XML: " ++ e),
      detectedFormat := str "openlyrics" }
  | .ok root =>
    let useNs := strContains (pyLower content) (str "openlyrics")
    let props := olFindElement root (str "properties") useNs
    let title0 :=
      match props with
      | some p =>
        match olFindElement p (str "titles") useNs with
        | some titles =>
          match olFindElement titles (str "title") useNs with
          | some te => if te.text ≠ [] then some (pyStrip te.text) else none
          | none => none
        | none => none
      | none => none
    let aset :=
      match props with
      | some p =>
        match olFindElement p (str "authors") useNs with
        | some authors =>
          olAuthorsGo (olFindAllElements authors (str "author") useNs) none []
        | none => (none, [])
      | none => (none, [])
    let artist := aset.1
    let key :=
      match props with
      | some p =>
        match olFindElement p (str "key") useNs with
        | some ke => if ke.text ≠ [] then some (pyStrip ke.text) else none
        | none => none
      | none => none
    let tempo :=
      match props with
      | some p =>
        match olFindElement p (str "tempo") useNs with
        | some te => if te.text ≠ [] then tempoFromText (some te.text) else none
        | none => none
      | none => none
    let notesParts := aset.2 ++
      (match props with
      | some p =>
        (match olFindElement p (str "copyright") useNs with
          | some ce => if ce.text ≠ [] then [str "Copyright: " ++ pyStrip ce.text] else []
          | none => []) ++
        (match olFindElement p (str "ccliNo") useNs with
          | some ce => if ce.text ≠ [] then [str "CCLI: " ++ pyStrip ce.text] else []
          | none => []) ++
        (match olFindElement p (str "comments") useNs with
          | some ce => if ce.text ≠ [] then [pyStrip ce.text] else []
          | none => [])
      | none => [])
    let lyricsElem := olFindElement root (str "lyrics") useNs
    let lc := olExtractLyrics (content.length + 1) lyricsElem useNs
    let sn := normalizeSections lc.1
    let chords := if lc.2 ≠ [] then extractChords lc.2 else []
    let dk := detectKeyFromChords chords
    let title := if optFalsy title0 then extractTitleFromFilename filename
      else title0.getD []
    let notes := if notesParts ≠ [] then some (joinLines notesParts) else none
    let specifiedKey := normalizeKey key
    let finalKey := if specifiedKey.isSome then specifiedKey else dk.1
    match buildSongData title artist finalKey tempo (some sn.1)
        (if lc.2 ≠ [] then some lc.2 else none) notes with
    | .ok sd =>
      { success := true, songData := some sd, detectedFormat := str "openlyrics",
        specifiedKey := specifiedKey, detectedKey := dk.1, keyConfidence := dk.2,
        sectionsNormalized := sn.2 }
    | .error e =>
      { success := false,
        error := some (str "Failed to parse OpenLyrics: " ++ e),
        detectedFormat := str "openlyrics" }

/-! ### Text decoding (`bytes.decode` for the four encodings tried)

`utf8Decode` is a strict UTF-8 decoder (surrogates and overlong forms
rejected, as Python's strict codec does).  The single-byte codecs are
decoding tables: Mac Roman and Latin-1 define all 256 positions, CP1252
leaves 0x81, 0x8D, 0x8F, 0x90 and 0x9D undefined. -/

/-- A UTF-8 continuation byte. -/
def utf8Cont (b : Nat) : Bool := 128 ≤ b && b ≤ 191

/-- Second-byte constraint of a three-byte sequence (E0: A0–BF, ED: 80–9F,
otherwise 80–BF). -/
def utf8Cont3 (b b2 : Nat) : Bool :=
  if b = 224 then 160 ≤ b2 && b2 ≤ 191
  else if b = 237 then 128 ≤ b2 && b2 ≤ 159
  else utf8Cont b2

/-- Second-byte constraint of a four-byte sequence (F0: 90–BF, F4: 80–8F,
otherwise 80–BF). -/
def utf8Cont4 (b b2 : Nat) : Bool :=
  if b = 240 then 144 ≤ b2 && b2 ≤ 191
  else if b = 244 then 128 ≤ b2 && b2 ≤ 143
  else utf8Cont b2

/-- Strict UTF-8 decoding (`content.decode("utf-8")`). -/
def utf8Decode : List Nat → Option Str
  | [] => some []
  | b :: rest =>
    if b < 128 then (utf8Decode rest).map (Char.ofNat b :: ·)
    else if 194 ≤ b ∧ b ≤ 223 then
      match rest with
      | b2 :: rest2 =>
        if utf8Cont b2 then
          (utf8Decode rest2).map (Char.ofNat ((b - 192) * 64 + (b2 - 128)) :: ·)
        else none
      | [] => none
    else if 224 ≤ b ∧ b ≤ 239 then
      match rest with
      | b2 :: b3 :: rest3 =>
        if utf8Cont3 b b2 ∧ utf8Cont b3 then
          (utf8Decode rest3).map
            (Char.ofNat ((b - 224) * 4096 + (b2 - 128) * 64 + (b3 - 128)) :: ·)
        else none
      | _ => none
    else if 240 ≤ b ∧ b ≤ 244 then
      match rest with
      | b2 :: b3 :: b4 :: rest4 =>
        if utf8Cont4 b b2 ∧ utf8Cont b3 ∧ utf8Cont b4 then
          (utf8Decode rest4).map
            (Char.ofNat ((b - 240) * 262144 + (b2 - 128) * 4096 +
              (b3 - 128) * 64 + (b4 - 128)) :: ·)
        else none
      | _ => none
    else none

/-- Decode with a single-byte table (`none` entries are undefined bytes). -/
def singleByteDecode (table : List (Option Char)) (bs : List Nat) : Option Str :=
  bs.mapM (fun b => table.getD b none)

/-- Code points of Mac Roman bytes 0x80–0xFF (all defined). -/
def macRomanHigh : List Nat :=
  [ 196, 197, 199, 201, 209, 214, 220, 225,
    224, 226, 228, 227, 229, 231, 233, 232,
    234, 235, 237, 236, 238, 239, 241, 243,
    242, 244, 246, 245, 250, 249, 251, 252,
    8224, 176, 162, 163, 167, 8226, 182, 223,
    174, 169, 8482, 180, 168, 8800, 198, 216,
    8734, 177, 8804, 8805, 165, 181, 8706, 8721,
    8719, 960, 8747, 170, 186, 937, 230, 248,
    191, 161, 172, 8730, 402, 8776, 8710, 171,
    187, 8230, 160, 192, 195, 213, 338, 339,
    8211, 8212, 8220, 8221, 8216, 8217, 247, 9674,
    255, 376, 8260, 8364, 8249, 8250, 64257, 64258,
    8225, 183, 8218, 8222, 8240, 194, 202, 193,
    203, 200, 205, 206, 207, 204, 211, 212,
    63743, 210, 218, 219, 217, 305, 710, 732,
    175, 728, 729, 730, 184, 733, 731, 711 ]

/-- The `mac_roman` decoding table. -/
def macRomanTable : List (Option Char) :=
  (List.range 128).map (fun b => some (Char.ofNat b)) ++
    macRomanHigh.map (fun c => some (Char.ofNat c))

/-- Code points of CP1252 bytes 0x80–0xFF (`none` = undefined). -/
def cp1252High : List (Option Nat) :=
  [ some 8364, none, some 8218, some 402, some 8222, some 8230, some 8224, some 8225,
    some 710, some 8240, some 352, some 8249, some 338, none, some 381, none,
    none, some 8216, some 8217, some 8220, some 8221, some 8226, some 8211, some 8212,
    some 732, some 8482, some 353, some 8250, some 339, none, some 382, some 376,
    some 160, some 161, some 162, some 163, some 164, some 165, some 166, some 167,
    some 168, some 169, some 170, some 171, some 172, some 173, some 174, some 175,
    some 176, some 177, some 178, some 179, some 180, some 181, some 182, some 183,
    some 184, some 185, some 186, some 187, some 188, some 189, some 190, some 191,
    some 192, some 193, some 194, some 195, some 196, some 197, some 198, some 199,
    some 200, some 201, some 202, some 203, some 204, some 205, some 206, some 207,
    some 208, some 209, some 210, some 211, some 212, some 213, some 214, some 215,
    some 216, some 217, some 218, some 219, some 220, some 221, some 222, some 223,
    some 224, some 225, some 226, some 227, some 228, some 229, some 230, some 231,
    some 232, some 233, some 234, some 235, some 236, some 237, some 238, some 239,
    some 240, some 241, some 242, some 243, some 244, some 245, some 246, some 247,
    some 248, some 249, some 250, some 251, some 252, some 253, some 254, some 255 ]

/-- The `cp1252` decoding table. -/
def cp1252Table : List (Option Char) :=
  (List.range 128).map (fun b => some (Char.ofNat b)) ++
    cp1252High.map (fun o => o.map Char.ofNat)

/-- The `latin-1` decoding table (total). -/
def latin1Table : List (Option Char) :=
  (List.range 256).map (fun b => some (Char.ofNat b))

/-! ### Format dispatcher (`detector.py`) -/

/-- The six parsers, as a closed enumeration. -/
inductive ParserTag where
  | chordpro | openlyrics | opensong | onsong | ultimateguitar | plaintext
deriving DecidableEq, Repr

/-- `PlainTextParser.can_parse` (the fallback: always true). -/
def plaintextCanParse (_content _filename : Str) : Bool := true

/-- `parser.can_parse` of each parser. -/
def canParseTag : ParserTag → Str → Str → Bool
  | .chordpro => chordproCanParse
  | .openlyrics => openlyricsCanParse
  | .opensong => opensongCanParse
  | .onsong => onsongCanParse
  | .ultimateguitar => ugCanParse
  | .plaintext => plaintextCanParse

/-- `parser.parse` of each parser. -/
def parseByTag : ParserTag → Str → Str → ParseResult
  | .chordpro => chordproParse
  | .openlyrics => openlyricsParse
  | .opensong => opensongParse
  | .onsong => onsongParse
  | .ultimateguitar => ugParse
  | .plaintext => plaintextParse

/-- `parser.format_name` of each parser. -/
def formatNameOf : ParserTag → Str
  | .chordpro => str "chordpro"
  | .openlyrics => str "openlyrics"
  | .opensong => str "opensong"
  | .onsong => str "onsong"
  | .ultimateguitar => str "ultimateguitar"
  | .plaintext => str "plaintext"

/-- `PARSERS`: detection priority order. -/
def parserOrder : List ParserTag :=
  [.chordpro, .openlyrics, .opensong, .onsong, .ultimateguitar, .plaintext]

/-- The decoding loop of `detect_and_parse`: UTF-8, then Mac Roman, then
CP1252, then Latin-1; the first success wins. -/
def decodeContent (bs : List Nat) : Option Str :=
  match utf8Decode bs with
  | some t => some t
  | none =>
    match singleByteDecode macRomanTable bs with
    | some t => some t
    | none =>
      match singleByteDecode cp1252Table bs with
      | some t => some t
      | none => singleByteDecode latin1Table bs

/-- `detect_and_parse(content, filename)`. -/
def detectAndParse (content : List Nat) (filename : Str) : ParseResult :=
  match decodeContent content with
  | none =>
    { success := false, error := some (str "Could not decode file content"),
      detectedFormat := str "unknown" }
  | some text =>
    match parserOrder.find? (fun p => canParseTag p text filename) with
    | some p => parseByTag p text filename
    | none =>
      { success := false, error := some (str "Could not detect file format"),
        detectedFormat := str "unknown" }

/-- The parser selected by the `for parser in PARSERS` loop: the first whose
`can_parse` returns true. -/
def selectParser (text filename : Str) : Option ParserTag :=
  parserOrder.find? (fun p => canParseTag p text filename)

/-! ### Definitions used by the claim statements -/

/-- `specified_key if specified_key else detected_key` — the key-precedence
rule shared by the parsers. -/
def keyPrecedence (spec det : Option MusicalKey) : Option MusicalKey :=
  if spec.isSome then spec else det

/-- ASCII text as bytes (the inputs of the concrete test vectors). -/
def asciiBytes (s : Str) : List Nat := s.map Char.toNat

/-- A string with every whitespace character deleted: two strings are "equal
up to whitespace differences" when their `wsFree` images coincide. -/
def wsFree (s : Str) : Str := s.filter (fun c => ¬ pyIsSpace c)

/-- Modelled from the claim's words: "removing every bracketed `[...]` token"
— delete every substring from a `[` to the next `]`. -/
def stripBracketTokens (s : Str) : Str :=
  reSub (catRE [chrRE '[', .starG (· ≠ ']'), chrRE ']']) [] s

/-- The value a first-occurrence-wins directive ends up with: the first
non-empty value, or the empty value when every occurrence is empty, or
nothing when the directive never occurs. -/
def firstNonemptyValue (vals : List Str) : Option Str :=
  match vals.filter (· ≠ []) with
  | v :: _ => some v
  | [] => if vals = [] then none else some []

/-- The tempo accepted from one `{tempo: …}` directive value: the first
digit run, when it lies in 20–300. -/
def tempoDirective (value : Str) : Option Nat :=
  match reSearch digitsRE 0 value with
  | some (_, _, g) =>
    let tv := digitsToNat ((groupGet g 1).getD [])
    if 20 ≤ tv ∧ tv ≤ 300 then some tv else none
  | none => none

/-- The `<key>` element text the OpenSong parser reads. -/
def opensongKeyOf (content : Str) : Option Str :=
  match etFromstring content with
  | .ok root => getElementText root (str "key")
  | .error _ => none


/-- The list `key_scores.items()` of `detect_key`, in candidate order. -/
def keyPairs (semis : List Nat) : List (Nat × ℚ) :=
  (List.range 12).map (fun c => (c, keyScore semis c))

/-- `sorted_keys[0]` of `detect_key`. -/
def bestPair (semis : List Nat) : Nat × ℚ :=
  (sortDesc (keyPairs semis)).headD (0, 0)

/-- `second_score` of `detect_key`. -/
def secondBest (semis : List Nat) : ℚ :=
  (((sortDesc (keyPairs semis)).drop 1).headD (0, 0)).2


/-- The default `DetectedSection` used as a `getD` fallback. -/
def noSection : DetectedSection := ⟨.unknown, none, 0, 0, [], 0, false⟩

/-- How many of the first `k` block indices are marked repeated. -/
def repCountBelow (rep : List Nat) (k : Nat) : Nat :=
  ((List.range k).filter (fun j => rep.contains j)).length

/-- The sections produced by the heuristic loop, without the accumulators. -/
def heurSecs (repeated : List Nat) :
    List (Nat × TextBlock) → Nat → Nat → List DetectedSection
  | [], _, _ => []
  | (i, b) :: rest, v, c =>
    if repeated.contains i then
      ⟨.chorus, (if 1 < c + 1 then some (c + 1) else none),
        b.startLine, b.endLine, b.content, 4/5, true⟩ :: heurSecs repeated rest v (c + 1)
    else
      ⟨.verse, some (v + 1), b.startLine, b.endLine, b.content, 3/5, true⟩ ::
        heurSecs repeated rest (v + 1) c

/-- The `title` update rule of the directive loop, iterated over the values
of the matching directives: an empty (falsy) current value is replaced by the
next value, a non-empty one is kept. -/
def titleFold : Option Str → List Str → Option Str
  | t, [] => t
  | t, v :: vs => if optFalsy t then titleFold (some v) vs else t

/-! ## Theorems -/

/-! ### Per-parser result shape -/

/-- Every ChordPro parse carries the parser's own format name, and a failure
carries a non-empty error. -/
theorem chordproParse_shape (text fn : Str) :
    (chordproParse text fn).detectedFormat = str "chordpro" ∧
    ((chordproParse text fn).success = false →
      ∃ e, (chordproParse text fn).error = some e ∧ e ≠ []) := by
  unfold chordproParse
  dsimp only
  split
  · exact ⟨rfl, by intro h; simp at h⟩
  · exact ⟨rfl, fun _ => ⟨_, rfl, by simp [str]⟩⟩

/-- Every PlainText parse carries the parser's own format name, and a failure
carries a non-empty error. -/
theorem plaintextParse_shape (text fn : Str) :
    (plaintextParse text fn).detectedFormat = str "plaintext" ∧
    ((plaintextParse text fn).success = false →
      ∃ e, (plaintextParse text fn).error = some e ∧ e ≠ []) := by
  unfold plaintextParse
  dsimp only
  split
  · exact ⟨rfl, by intro h; simp at h⟩
  · exact ⟨rfl, fun _ => ⟨_, rfl, by simp [str]⟩⟩

/-- Every OnSong parse carries the parser's own format name, and a failure
carries a non-empty error. -/
theorem onsongParse_shape (text fn : Str) :
    (onsongParse text fn).detectedFormat = str "onsong" ∧
    ((onsongParse text fn).success = false →
      ∃ e, (onsongParse text fn).error = some e ∧ e ≠ []) := by
  unfold onsongParse
  dsimp only
  split
  · exact ⟨rfl, by intro h; simp at h⟩
  · exact ⟨rfl, fun _ => ⟨_, rfl, by simp [str]⟩⟩

/-- Every Ultimate Guitar parse carries the parser's own format name, and a
failure carries a non-empty error. -/
theorem ugParse_shape (text fn : Str) :
    (ugParse text fn).detectedFormat = str "ultimateguitar" ∧
    ((ugParse text fn).success = false →
      ∃ e, (ugParse text fn).error = some e ∧ e ≠ []) := by
  unfold ugParse
  dsimp only
  split
  · exact ⟨rfl, by intro h; simp at h⟩
  · exact ⟨rfl, fun _ => ⟨_, rfl, by simp [str]⟩⟩

/-- Every OpenSong parse carries the parser's own format name, and a failure
carries a non-empty error. -/
theorem opensongParse_shape (text fn : Str) :
    (opensongParse text fn).detectedFormat = str "opensong" ∧
    ((opensongParse text fn).success = false →
      ∃ e, (opensongParse text fn).error = some e ∧ e ≠ []) := by
  unfold opensongParse
  split
  · exact ⟨rfl, fun _ => ⟨_, rfl, by simp [str]⟩⟩
  · dsimp only
    split
    · exact ⟨rfl, by intro h; simp at h⟩
    · exact ⟨rfl, fun _ => ⟨_, rfl, by simp [str]⟩⟩

/-- Every OpenLyrics parse carries the parser's own format name, and a
failure carries a non-empty error. -/
theorem openlyricsParse_shape (text fn : Str) :
    (openlyricsParse text fn).detectedFormat = str "openlyrics" ∧
    ((openlyricsParse text fn).success = false →
      ∃ e, (openlyricsParse text fn).error = some e ∧ e ≠ []) := by
  unfold openlyricsParse
  split
  · exact ⟨rfl, fun _ => ⟨_, rfl, by simp [str]⟩⟩
  · dsimp only
    split
    · exact ⟨rfl, by intro h; simp at h⟩
    · exact ⟨rfl, fun _ => ⟨_, rfl, by simp [str]⟩⟩

/-- `parse` of every parser reports that parser's own `format_name`. -/
theorem parseByTag_format (p : ParserTag) (text fn : Str) :
    (parseByTag p text fn).detectedFormat = formatNameOf p := by
  cases p
  · exact (chordproParse_shape text fn).1
  · exact (openlyricsParse_shape text fn).1
  · exact (opensongParse_shape text fn).1
  · exact (onsongParse_shape text fn).1
  · exact (ugParse_shape text fn).1
  · exact (plaintextParse_shape text fn).1

/-- The fallback parser always claims the input, so the selection loop always
selects a parser. -/
theorem selectParser_isSome (text fn : Str) :
    ∃ p, selectParser text fn = some p := by
  have h : (selectParser text fn).isSome := by
    rw [selectParser, List.find?_isSome]
    exact ⟨.plaintext, by simp [parserOrder], rfl⟩
  exact Option.isSome_iff_exists.mp h

/-! ### C4 -/

/-- C4: every one of the six parsers returns a `ParseResult` for every input
(the embedded `parse` functions are total, modelling the catch-all exception
handlers), a failed result carries that parser's own format name, and its
error field is a non-empty string; the format name is in fact reported on
every result. -/
theorem C4_parse_total_failure_contract :
    ∀ (p : ParserTag) (text fn : Str),
      (parseByTag p text fn).detectedFormat = formatNameOf p ∧
      ((parseByTag p text fn).success = false →
        ∃ e, (parseByTag p text fn).error = some e ∧ e ≠ []) := by
  intro p text fn
  refine ⟨parseByTag_format p text fn, ?_⟩
  cases p
  · exact (chordproParse_shape text fn).2
  · exact (openlyricsParse_shape text fn).2
  · exact (opensongParse_shape text fn).2
  · exact (onsongParse_shape text fn).2
  · exact (ugParse_shape text fn).2
  · exact (plaintextParse_shape text fn).2

/-- Witness for C4 at a concrete failing input: malformed XML handed to the
OpenSong parser fails with its own format name and a non-empty error. -/
theorem C4_witness :
    (parseByTag ParserTag.opensong (str "<x") (str "f")).success = false ∧
    (parseByTag ParserTag.opensong (str "<x") (str "f")).detectedFormat =
      formatNameOf ParserTag.opensong ∧
    ∃ e, (parseByTag ParserTag.opensong (str "<x") (str "f")).error = some e ∧
      e ≠ [] := by
  have hs : (parseByTag ParserTag.opensong (str "<x") (str "f")).success = false := by
    set_option maxRecDepth 8000 in decide
  have h := C4_parse_total_failure_contract ParserTag.opensong (str "<x") (str "f")
  exact ⟨hs, h.1, h.2 hs⟩

/-! ### C10 -/

set_option maxRecDepth 20000 in
/-- Every byte value below 256 is defined in the Mac Roman decoding table. -/
theorem macRoman_total : ∀ b, b < 256 → (macRomanTable.getD b none).isSome := by
  decide

/-- Decoding a byte list of valid bytes under Mac Roman always succeeds. -/
theorem macRoman_decodes (bs : List Nat) (h : ∀ b ∈ bs, b < 256) :
    ∃ t, singleByteDecode macRomanTable bs = some t := by
  induction bs with
  | nil => exact ⟨[], rfl⟩
  | cons b rest ih =>
    obtain ⟨c, hc⟩ := Option.isSome_iff_exists.mp
      (macRoman_total b (h b (List.mem_cons_self b rest)))
    obtain ⟨t, ht⟩ := ih (fun x hx => h x (List.mem_cons_of_mem b hx))
    refine ⟨c :: t, ?_⟩
    unfold singleByteDecode at ht ⊢
    rw [List.mapM_cons, hc, ht]
    rfl

/-- C10: for every byte string, the decoding loop of `detect_and_parse`
succeeds no later than its second attempt — Mac Roman decodes every byte
sequence — so the CP1252 and Latin-1 attempts, the decode-failure branch and
the no-parser-matched branch are unreachable, and `detect_and_parse` never
returns a result with `detected_format = "unknown"`. -/
theorem C10_decode_second_attempt :
    ∀ (bs : List Nat) (fn : Str), (∀ b ∈ bs, b < 256) →
      (∃ t, singleByteDecode macRomanTable bs = some t ∧
        decodeContent bs = some ((utf8Decode bs).getD t)) ∧
      (detectAndParse bs fn).detectedFormat ≠ str "unknown" := by
  intro bs fn h
  obtain ⟨t, ht⟩ := macRoman_decodes bs h
  have hdec : decodeContent bs = some ((utf8Decode bs).getD t) := by
    unfold decodeContent
    cases hu : utf8Decode bs with
    | some u => simp [hu]
    | none => simp [hu, ht]
  refine ⟨⟨t, ht, hdec⟩, ?_⟩
  obtain ⟨p, hp⟩ := selectParser_isSome ((utf8Decode bs).getD t) fn
  rw [selectParser] at hp
  have hda : detectAndParse bs fn = parseByTag p ((utf8Decode bs).getD t) fn := by
    unfold detectAndParse
    rw [hdec]
    dsimp only
    rw [hp]
  rw [hda, parseByTag_format]
  cases p <;> decide

/-- Witness for C10: the byte 0xFF is invalid UTF-8 yet decodes (via Mac
Roman) and is dispatched to a real format. -/
theorem C10_witness :
    (∃ t, singleByteDecode macRomanTable [255] = some t ∧
      decodeContent [255] = some ((utf8Decode [255]).getD t)) ∧
    (detectAndParse [255] (str "x")).detectedFormat ≠ str "unknown" :=
  C10_decode_second_attempt [255] (str "x") (by decide)

/-! ### C1 -/

/-- C1: the dispatcher probes the parsers in the fixed order ChordPro,
OpenLyrics, OpenSong, OnSong, UltimateGuitar, PlainText; the first parser
whose `can_parse` accepts wins and its `parse` handles the input; PlainText's
`can_parse` accepts everything; and the ChordPro-directive content
`"{title: X}\n[G]y"` under a `.txt` filename is detected and parsed as
chordpro, not plaintext. -/
theorem C1_dispatch_priority :
    parserOrder = [ParserTag.chordpro, ParserTag.openlyrics, ParserTag.opensong,
      ParserTag.onsong, ParserTag.ultimateguitar, ParserTag.plaintext] ∧
    (∀ text fn, canParseTag ParserTag.plaintext text fn = true) ∧
    (∀ text fn, selectParser text fn =
      (if chordproCanParse text fn then some ParserTag.chordpro
       else if openlyricsCanParse text fn then some ParserTag.openlyrics
       else if opensongCanParse text fn then some ParserTag.opensong
       else if onsongCanParse text fn then some ParserTag.onsong
       else if ugCanParse text fn then some ParserTag.ultimateguitar
       else some ParserTag.plaintext)) ∧
    (∀ bs fn text, decodeContent bs = some text →
      ∃ p, selectParser text fn = some p ∧
        detectAndParse bs fn = parseByTag p text fn) ∧
    selectParser (str "\x7btitle: X\x7d\n[G]y") (str "song.txt") =
      some ParserTag.chordpro ∧
    (detectAndParse (asciiBytes (str "\x7btitle: X\x7d\n[G]y"))
      (str "song.txt")).detectedFormat = str "chordpro" ∧
    (detectAndParse (asciiBytes (str "\x7btitle: X\x7d\n[G]y"))
      (str "song.txt")).success = true := by
  refine ⟨rfl, fun _ _ => rfl, ?_, ?_, ?_, ?_, ?_⟩
  · intro text fn
    unfold selectParser parserOrder
    cases h1 : chordproCanParse text fn <;>
      cases h2 : openlyricsCanParse text fn <;>
      cases h3 : opensongCanParse text fn <;>
      cases h4 : onsongCanParse text fn <;>
      cases h5 : ugCanParse text fn <;>
      simp [List.find?, canParseTag, plaintextCanParse, h1, h2, h3, h4, h5]
  · intro bs fn text hdec
    obtain ⟨p, hp⟩ := selectParser_isSome text fn
    refine ⟨p, hp, ?_⟩
    rw [selectParser] at hp
    unfold detectAndParse
    rw [hdec]
    dsimp only
    rw [hp]
  · decide
  · decide
  · decide

/-- Witness for C1: the ChordPro-directive content under a `.txt` filename
decodes and is dispatched to the parser `selectParser` picks. -/
theorem C1_witness :
    decodeContent (asciiBytes (str "\x7btitle: X\x7d\n[G]y")) =
      some (str "\x7btitle: X\x7d\n[G]y") ∧
    ∃ p, selectParser (str "\x7btitle: X\x7d\n[G]y") (str "song.txt") = some p ∧
      detectAndParse (asciiBytes (str "\x7btitle: X\x7d\n[G]y")) (str "song.txt") =
        parseByTag p (str "\x7btitle: X\x7d\n[G]y") (str "song.txt") := by
  refine ⟨by decide, ?_⟩
  exact C1_dispatch_priority.2.2.2.1 _ _ _ (by decide)

/-! ### C2: key detection -/

lemma chordWeight_le_three (i : ℤ) : chordWeight i ≤ 3 := by
  unfold chordWeight; split_ifs <;> norm_num

section
attribute [local semireducible] Rat.add Rat.mul Rat.inv Rat.sub Rat.ofScientific

lemma perRootSum : ∀ r : Nat, r < 12 →
    ((List.range 12).map (fun c => keyScore [r] c)).sum = 10 := by decide

end

lemma sum_map_add (l : List Nat) (f g : Nat → ℚ) :
    (l.map (fun c => f c + g c)).sum = (l.map f).sum + (l.map g).sum := by
  induction l with
  | nil => simp
  | cons a t ih => simp [ih]; ring

lemma keyScore_cons (r : Nat) (t : List Nat) (c : Nat) :
    keyScore (r :: t) c = keyScore [r] c + keyScore t c := by
  simp [keyScore]

lemma totalScore (semis : List Nat) (h : ∀ r ∈ semis, r < 12) :
    ((List.range 12).map (fun c => keyScore semis c)).sum = 10 * (semis.length : ℚ) := by
  induction semis with
  | nil => simp [keyScore]
  | cons r t ih =>
    have h1 : ∀ x ∈ t, x < 12 := fun x hx => h x (List.mem_cons_of_mem _ hx)
    have hr : r < 12 := h r (List.mem_cons_self _ _)
    have hmap : (List.range 12).map (fun c => keyScore (r :: t) c)
        = (List.range 12).map (fun c => keyScore [r] c + keyScore t c) := by
      apply List.map_congr_left; intro c _; exact keyScore_cons r t c
    rw [hmap, sum_map_add, perRootSum r hr, ih h1, List.length_cons]
    push_cast
    ring

lemma keyScore_le (semis : List Nat) (c : Nat) :
    keyScore semis c ≤ 3 * (semis.length : ℚ) := by
  induction semis with
  | nil => simp [keyScore]
  | cons r t ih =>
    rw [keyScore_cons]
    have h1 : keyScore [r] c ≤ 3 := by
      have := chordWeight_le_three (((r : ℤ) - (c : ℤ)) % 12)
      simp [keyScore]
      exact this
    rw [List.length_cons]
    push_cast
    push_cast at ih
    linarith

lemma lookup_snd_mem {α β : Type} [BEq α] {l : List (α × β)} {k : α} {v : β}
    (h : l.lookup k = some v) : v ∈ l.map Prod.snd := by
  induction l with
  | nil => simp [List.lookup] at h
  | cons p t ih =>
    obtain ⟨a, b⟩ := p
    rw [List.lookup] at h
    cases hab : (k == a) with
    | true => rw [hab] at h; simp at h; simp [h]
    | false => rw [hab] at h; simp only [List.map_cons, List.mem_cons]; right; exact ih h

lemma rootSemitones_lt (chords : List Str) : ∀ r ∈ rootSemitones chords, r < 12 := by
  intro r hr
  rw [rootSemitones, List.mem_filterMap] at hr
  obtain ⟨ch, _, hbind⟩ := hr
  obtain ⟨root, hroot, hlk⟩ := Option.bind_eq_some.mp hbind
  have htab : ∀ v ∈ noteToSemitone.map Prod.snd, v < 12 := by decide
  exact htab r (lookup_snd_mem hlk)

lemma insertDesc_perm (x : Nat × ℚ) (l : List (Nat × ℚ)) :
    (insertDesc x l).Perm (x :: l) := by
  induction l with
  | nil => simp [insertDesc]
  | cons y ys ih =>
    rw [insertDesc]
    split
    · exact (ih.cons y).trans (List.Perm.swap x y ys)
    · exact List.Perm.refl _

lemma sortDesc_go_perm (l : List (Nat × ℚ)) :
    ∀ acc, (l.foldl (fun acc x => insertDesc x acc) acc).Perm (acc ++ l) := by
  induction l with
  | nil => intro acc; simp
  | cons x t ih =>
    intro acc
    rw [List.foldl_cons]
    refine (ih (insertDesc x acc)).trans ?_
    refine (((insertDesc_perm x acc).append_right t).trans ?_)
    exact List.perm_middle.symm

lemma sortDesc_perm (l : List (Nat × ℚ)) : (sortDesc l).Perm l := by
  simpa using sortDesc_go_perm l []

lemma insertDesc_sorted (x : Nat × ℚ) (l : List (Nat × ℚ))
    (h : l.Pairwise (fun a b => b.2 ≤ a.2)) :
    (insertDesc x l).Pairwise (fun a b => b.2 ≤ a.2) := by
  induction l with
  | nil => simp [insertDesc]
  | cons y ys ih =>
    rw [List.pairwise_cons] at h
    obtain ⟨hy, hys⟩ := h
    rw [insertDesc]
    split
    · next hxy =>
      rw [List.pairwise_cons]
      refine ⟨?_, ih hys⟩
      intro z hz
      rcases List.mem_cons.mp ((insertDesc_perm x ys).mem_iff.mp hz) with rfl | hz'
      · exact hxy
      · exact hy z hz'
    · next hxy =>
      push_neg at hxy
      rw [List.pairwise_cons]
      refine ⟨?_, List.pairwise_cons.mpr ⟨hy, hys⟩⟩
      intro z hz
      rcases List.mem_cons.mp hz with rfl | hz'
      · exact le_of_lt hxy
      · exact le_trans (hy z hz') (le_of_lt hxy)

lemma sortDesc_go_sorted (l : List (Nat × ℚ)) :
    ∀ acc, acc.Pairwise (fun a b => b.2 ≤ a.2) →
      (l.foldl (fun acc x => insertDesc x acc) acc).Pairwise (fun a b => b.2 ≤ a.2) := by
  induction l with
  | nil => intro acc h; exact h
  | cons x t ih => intro acc h; exact ih _ (insertDesc_sorted x acc h)

lemma sortDesc_sorted (l : List (Nat × ℚ)) :
    (sortDesc l).Pairwise (fun a b => b.2 ≤ a.2) :=
  sortDesc_go_sorted l [] (by simp)

set_option maxHeartbeats 1600000 in
lemma bestPair_spec (semis : List Nat) (hne : semis ≠ []) (hlt : ∀ r ∈ semis, r < 12) :
    (bestPair semis).1 < 12 ∧
    (bestPair semis).2 = keyScore semis (bestPair semis).1 ∧
    (∀ c, c < 12 → keyScore semis c ≤ (bestPair semis).2) ∧
    0 < (bestPair semis).2 ∧
    0 ≤ secondBest semis := by
  have hperm : (sortDesc (keyPairs semis)).Perm (keyPairs semis) := sortDesc_perm _
  have hsorted := sortDesc_sorted (keyPairs semis)
  have hlen : (sortDesc (keyPairs semis)).length = 12 := by
    rw [hperm.length_eq]; simp [keyPairs]
  obtain ⟨a, t, hat⟩ : ∃ a t, sortDesc (keyPairs semis) = a :: t := by
    cases h : sortDesc (keyPairs semis) with
    | nil => rw [h] at hlen; simp at hlen
    | cons a t => exact ⟨a, t, rfl⟩
  have htlen : t.length = 11 := by rw [hat] at hlen; simpa using hlen
  obtain ⟨b, rest, hbt⟩ : ∃ b rest, t = b :: rest := by
    cases h : t with
    | nil => rw [h] at htlen; simp at htlen
    | cons b rest => exact ⟨b, rest, rfl⟩
  have hbest : bestPair semis = a := by rw [bestPair, hat]; rfl
  have hsecond : secondBest semis = b.2 := by rw [secondBest, hat, hbt]; rfl
  have hn : 0 < semis.length := List.length_pos.mpr hne
  -- facts from sortedness
  rw [hat] at hsorted
  rw [List.pairwise_cons] at hsorted
  obtain ⟨hamax, htsorted⟩ := hsorted
  -- a is an actual (candidate, score) pair
  have haMem : a ∈ keyPairs semis := hperm.mem_iff.mp (by rw [hat]; exact List.mem_cons_self _ _)
  obtain ⟨c0, hc0, hac0⟩ := List.mem_map.mp haMem
  have hc0lt : c0 < 12 := List.mem_range.mp hc0
  have ha1 : a.1 = c0 := by rw [← hac0]
  have ha2 : a.2 = keyScore semis a.1 := by rw [← hac0]
  -- maximality
  have hmax : ∀ c, c < 12 → keyScore semis c ≤ a.2 := by
    intro c hc
    have hmem : (c, keyScore semis c) ∈ keyPairs semis :=
      List.mem_map.mpr ⟨c, List.mem_range.mpr hc, rfl⟩
    have : (c, keyScore semis c) ∈ a :: t := by
      rw [← hat]; exact hperm.mem_iff.mpr hmem
    rcases List.mem_cons.mp this with heq | hmem'
    · rw [← heq]
    · exact hamax _ hmem'
  -- total of all scores
  have hsum : a.2 + (t.map Prod.snd).sum = 10 * (semis.length : ℚ) := by
    have h1 := (hperm.map Prod.snd).sum_eq
    have h2 : (keyPairs semis).map Prod.snd = (List.range 12).map (fun c => keyScore semis c) := by
      simp [keyPairs, List.map_map, Function.comp]
    rw [hat] at h1
    simp only [List.map_cons, List.sum_cons] at h1
    rw [h2, totalScore semis hlt] at h1
    exact h1
  -- best is positive
  have hbound : ∀ x ∈ (a :: t).map Prod.snd, x ≤ a.2 := by
    intro x hx
    obtain ⟨z, hz, rfl⟩ := List.mem_map.mp hx
    rcases List.mem_cons.mp hz with rfl | hz'
    · exact le_refl _
    · exact hamax z hz'
  have hsumle := List.sum_le_card_nsmul _ _ hbound
  have hlen2 : ((a :: t).map Prod.snd).length = 12 := by
    rw [List.length_map, ← hat, hlen]
  rw [hlen2, nsmul_eq_mul] at hsumle
  push_cast at hsumle
  have hsum2 : ((a :: t).map Prod.snd).sum = a.2 + (t.map Prod.snd).sum := by
    simp
  rw [hsum2, hsum] at hsumle
  have hnq : (1 : ℚ) ≤ (semis.length : ℚ) := by exact_mod_cast hn
  have hapos : 0 < a.2 := by linarith
  -- second best is nonnegative
  have hb2 : 0 ≤ b.2 := by
    by_contra hneg
    push_neg at hneg
    rw [hbt] at htsorted
    rw [List.pairwise_cons] at htsorted
    obtain ⟨hbmax, _⟩ := htsorted
    have hbound2 : ∀ x ∈ t.map Prod.snd, x ≤ b.2 := by
      intro x hx
      obtain ⟨z, hz, rfl⟩ := List.mem_map.mp hx
      rw [hbt] at hz
      rcases List.mem_cons.mp hz with rfl | hz'
      · exact le_refl _
      · exact hbmax z hz'
    have hsle := List.sum_le_card_nsmul _ _ hbound2
    rw [List.length_map, htlen, nsmul_eq_mul] at hsle
    push_cast at hsle
    have ha3 : a.2 ≤ 3 * (semis.length : ℚ) := ha2 ▸ keyScore_le semis a.1
    linarith
  rw [hbest, hsecond]
  exact ⟨by rw [ha1]; exact hc0lt, ha2, hmax, hapos, hb2⟩

lemma detectKey_char (chords : List Str) (h2 : rootSemitones chords ≠ []) :
    detectKey chords =
      ⟨semitoneToKey (bestPair (rootSemitones chords)).1,
       (if 3/10 ≤ (if 0 < (bestPair (rootSemitones chords)).2 ∧ 0 ≤ secondBest (rootSemitones chords)
            then ((bestPair (rootSemitones chords)).2 - secondBest (rootSemitones chords)) /
              (bestPair (rootSemitones chords)).2 else 0)
          then KeyConfidence.high
          else if 3/20 ≤ (if 0 < (bestPair (rootSemitones chords)).2 ∧ 0 ≤ secondBest (rootSemitones chords)
            then ((bestPair (rootSemitones chords)).2 - secondBest (rootSemitones chords)) /
              (bestPair (rootSemitones chords)).2 else 0)
          then KeyConfidence.medium else KeyConfidence.low),
       (if 0 < (bestPair (rootSemitones chords)).2 ∧ 0 ≤ secondBest (rootSemitones chords)
        then ((bestPair (rootSemitones chords)).2 - secondBest (rootSemitones chords)) /
          (bestPair (rootSemitones chords)).2 else 0)⟩ := by
  have h1 : chords ≠ [] := by
    intro h; rw [h] at h2; exact h2 rfl
  rw [detectKey, if_neg h1]
  simp only [if_neg h2]
  rfl

section
attribute [local semireducible] Rat.add Rat.mul Rat.inv Rat.sub Rat.ofScientific

set_option maxRecDepth 8000 in
set_option maxHeartbeats 3200000 in
/-- C2: `detect_key` returns no key with confidence `low` and score `0.0` on an
empty chord list or when no chord yields a recognizable root; otherwise it
returns the key of the candidate tonic maximizing the weighted score (the sum
over observed roots of `chordWeight ((root - candidate) % 12)`), with
`confidence_score = (best - second_best)/best`, mapped to `high` at `>= 0.30`,
`medium` at `>= 0.15`, else `low`; `["G","C","D","G"]` yields G and
`["C","F","G","C","Am","F","G","C"]` yields C. -/
theorem C2_key_detection :
    detectKey [] = ⟨none, KeyConfidence.low, 0⟩ ∧
    (∀ chords, rootSemitones chords = [] →
      detectKey chords = ⟨none, KeyConfidence.low, 0⟩) ∧
    (∀ chords, rootSemitones chords ≠ [] →
      (bestPair (rootSemitones chords)).1 < 12 ∧
      (bestPair (rootSemitones chords)).2 =
        keyScore (rootSemitones chords) (bestPair (rootSemitones chords)).1 ∧
      (∀ c, c < 12 →
        keyScore (rootSemitones chords) c ≤ (bestPair (rootSemitones chords)).2) ∧
      0 < (bestPair (rootSemitones chords)).2 ∧
      0 ≤ secondBest (rootSemitones chords) ∧
      (detectKey chords).detectedKey = semitoneToKey (bestPair (rootSemitones chords)).1 ∧
      (detectKey chords).confidenceScore =
        ((bestPair (rootSemitones chords)).2 - secondBest (rootSemitones chords)) /
          (bestPair (rootSemitones chords)).2 ∧
      (detectKey chords).confidence =
        (if 3/10 ≤ (detectKey chords).confidenceScore then KeyConfidence.high
         else if 3/20 ≤ (detectKey chords).confidenceScore then KeyConfidence.medium
         else KeyConfidence.low)) ∧
    detectKey [str "G", str "C", str "D", str "G"] =
      ⟨some MusicalKey.G, KeyConfidence.low, 1/7⟩ ∧
    detectKey [str "C", str "F", str "G", str "C", str "Am", str "F", str "G", str "C"] =
      ⟨some MusicalKey.C, KeyConfidence.medium, 2/13⟩ := by
  refine ⟨rfl, ?_, ?_, ?_, ?_⟩
  · intro chords hsem
    rw [detectKey]
    split
    · rfl
    · simp only [hsem]
      rfl
  · intro chords hsem
    obtain ⟨hlt12, hscore, hmaxs, hpos, hsecond⟩ :=
      bestPair_spec (rootSemitones chords) hsem (rootSemitones_lt chords)
    have hchar := detectKey_char chords hsem
    have hguard : 0 < (bestPair (rootSemitones chords)).2 ∧
        0 ≤ secondBest (rootSemitones chords) := ⟨hpos, hsecond⟩
    rw [hchar]
    simp only [if_pos hguard]
    refine ⟨hlt12, hscore, hmaxs, hpos, hsecond, ?_, ?_, ?_⟩ <;> trivial
  · decide
  · decide

set_option maxRecDepth 8000 in
set_option maxHeartbeats 1600000 in
/-- Witness for C2 at concrete inputs: `["G","C","D","G"]` has recognizable
roots and the no-root clause fires on `["x"]`. -/
theorem C2_key_detection_witness :
    rootSemitones [str "G", str "C", str "D", str "G"] ≠ [] ∧
    (detectKey [str "G", str "C", str "D", str "G"]).detectedKey =
      semitoneToKey (bestPair (rootSemitones [str "G", str "C", str "D", str "G"])).1 ∧
    rootSemitones [str "x"] = [] ∧
    detectKey [str "x"] = ⟨none, KeyConfidence.low, 0⟩ := by
  refine ⟨by decide, ?_, by decide, ?_⟩
  · exact (C2_key_detection.2.2.1 _ (by decide)).2.2.2.2.2.1
  · exact C2_key_detection.2.1 [str "x"] (by decide)

end

/-! ### C9: heuristic section classification -/

lemma heuristicGo_acc (repeated : List Nat) (en : List (Nat × TextBlock)) :
    ∀ v c parts secs, heuristicGo repeated en v c parts secs =
      (parts ++ (heuristicGo repeated en v c [] []).1,
       secs ++ (heuristicGo repeated en v c [] []).2) := by
  induction en with
  | nil => intro v c parts secs; simp [heuristicGo]
  | cons p rest ih =>
    intro v c parts secs
    obtain ⟨i, b⟩ := p
    cases h : repeated.contains i with
    | true =>
      simp only [heuristicGo, h, Bool.false_eq_true, if_true, if_false, List.nil_append]
      refine (ih _ _ _ _).trans ?_
      conv_rhs => rw [ih]
      simp [List.append_assoc]
    | false =>
      simp only [heuristicGo, h, Bool.false_eq_true, if_true, if_false, List.nil_append]
      refine (ih _ _ _ _).trans ?_
      conv_rhs => rw [ih]
      simp [List.append_assoc]

lemma heuristicGo_secs_eq (repeated : List Nat) (en : List (Nat × TextBlock)) :
    ∀ v c, (heuristicGo repeated en v c [] []).2 = heurSecs repeated en v c := by
  induction en with
  | nil => intro v c; rfl
  | cons p rest ih =>
    intro v c
    obtain ⟨i, b⟩ := p
    cases h : repeated.contains i with
    | true =>
      simp only [heuristicGo, heurSecs, h, Bool.false_eq_true, if_true, if_false,
        List.nil_append]
      rw [heuristicGo_acc]
      simp [ih]
    | false =>
      simp only [heuristicGo, heurSecs, h, Bool.false_eq_true, if_true, if_false,
        List.nil_append]
      rw [heuristicGo_acc]
      simp [ih]

lemma heurSecs_len (repeated : List Nat) (en : List (Nat × TextBlock)) :
    ∀ v c, (heurSecs repeated en v c).length = en.length := by
  induction en with
  | nil => intro v c; rfl
  | cons p rest ih =>
    intro v c
    obtain ⟨i, b⟩ := p
    cases h : repeated.contains i with
    | true =>
      simp only [heurSecs, h, Bool.false_eq_true, if_true, if_false, List.length_cons, ih]
    | false =>
      simp only [heurSecs, h, Bool.false_eq_true, if_true, if_false, List.length_cons, ih]

lemma heurSecs_get (repeated : List Nat) (en : List (Nat × TextBlock)) :
    ∀ v c k, k < en.length →
      (heurSecs repeated en v c).getD k noSection =
        (let p := en.getD k (0, ⟨[], 0, 0⟩)
         let prevRep := ((en.take k).filter (fun q => repeated.contains q.1)).length
         if repeated.contains p.1 then
           ⟨.chorus, (if 1 < c + prevRep + 1 then some (c + prevRep + 1) else none),
            p.2.startLine, p.2.endLine, p.2.content, 4/5, true⟩
         else
           ⟨.verse, some (v + (k - prevRep) + 1),
            p.2.startLine, p.2.endLine, p.2.content, 3/5, true⟩) := by
  induction en with
  | nil => intro v c k hk; simp at hk
  | cons p rest ih =>
    intro v c k hk
    obtain ⟨i, b⟩ := p
    cases h : repeated.contains i with
    | true =>
      simp only [heurSecs, h, Bool.false_eq_true, if_true, if_false]
      cases k with
      | zero =>
        dsimp only [List.getD_cons_zero, List.take_zero, List.filter_nil, List.length_nil]
        rw [if_pos h]
      | succ k =>
        have hple : ((rest.take k).filter (fun q => repeated.contains q.1)).length ≤ k := by
          calc ((rest.take k).filter (fun q => repeated.contains q.1)).length
              ≤ (rest.take k).length := List.length_filter_le _ _
            _ ≤ k := List.length_take_le _ _
        have hk' : k < rest.length := by simpa using hk
        simp only [List.getD_cons_succ, List.take_succ_cons]
        rw [List.filter_cons_of_pos (by simpa using h), List.length_cons]
        have e1 : c + (((rest.take k).filter (fun q => repeated.contains q.1)).length + 1) + 1
            = c + 1 + ((rest.take k).filter (fun q => repeated.contains q.1)).length + 1 := by
          omega
        have e2 : k + 1 - (((rest.take k).filter (fun q => repeated.contains q.1)).length + 1)
            = k - ((rest.take k).filter (fun q => repeated.contains q.1)).length := by
          omega
        rw [e1, e2, ih v (c + 1) k hk']
    | false =>
      simp only [heurSecs, h, Bool.false_eq_true, if_true, if_false]
      cases k with
      | zero =>
        dsimp only [List.getD_cons_zero, List.take_zero, List.filter_nil, List.length_nil]
        rw [if_neg (by rw [h]; exact Bool.false_ne_true)]
      | succ k =>
        have hple : ((rest.take k).filter (fun q => repeated.contains q.1)).length ≤ k := by
          calc ((rest.take k).filter (fun q => repeated.contains q.1)).length
              ≤ (rest.take k).length := List.length_filter_le _ _
            _ ≤ k := List.length_take_le _ _
        have hk' : k < rest.length := by simpa using hk
        simp only [List.getD_cons_succ, List.take_succ_cons]
        rw [List.filter_cons_of_neg (by simpa using h)]
        have e3 : v + (k + 1 - ((rest.take k).filter (fun q => repeated.contains q.1)).length) + 1
            = v + 1 + (k - ((rest.take k).filter (fun q => repeated.contains q.1)).length) + 1 := by
          omega
        rw [e3, ih (v + 1) c k hk']

lemma mem_findRepeatedBlocks (blocks : List TextBlock) (k : Nat) :
    (findRepeatedBlocks blocks).contains k = true ↔
      ∃ i j, i < blocks.length ∧ j < blocks.length ∧ i < j ∧
        chorusSimilarityThreshold ≤ calculateSimilarity
          ((blocks.getD i ⟨[], 0, 0⟩).content) ((blocks.getD j ⟨[], 0, 0⟩).content) ∧
        (k = i ∨ k = j) := by
  rw [List.elem_iff]
  simp only [findRepeatedBlocks, List.mem_flatMap, List.mem_filter, List.mem_range,
    List.mem_cons, List.mem_singleton, List.not_mem_nil, or_false, decide_eq_true_eq]
  constructor
  · rintro ⟨i, hi, j, ⟨hj, hij, hsim⟩, hk⟩
    exact ⟨i, j, hi, hj, hij, hsim, hk⟩
  · rintro ⟨i, j, hi, hj, hij, hsim, hk⟩
    exact ⟨i, hi, j, ⟨hj, hij, hsim⟩, hk⟩

lemma enum_getD_blocks (l : List TextBlock) (k : Nat) (h : k < l.length) :
    l.enum.getD k (0, ⟨[], 0, 0⟩) = (k, l.getD k ⟨[], 0, 0⟩) := by
  rw [List.getD_eq_getElem _ _ (by simpa [List.enum_length] using h),
    List.getD_eq_getElem _ _ h, List.getElem_enum]

lemma enum_take_count (rep : List Nat) (l : List TextBlock) (k : Nat) (hk : k ≤ l.length) :
    ((l.enum.take k).filter (fun q => rep.contains q.1)).length = repCountBelow rep k := by
  rw [repCountBelow, ← List.countP_eq_length_filter, ← List.countP_eq_length_filter]
  have h1 : (l.enum.take k).map Prod.fst = List.range k := by
    rw [List.map_take, List.enum_map_fst, List.take_range, Nat.min_eq_left hk]
  calc (l.enum.take k).countP (fun q => rep.contains q.1)
      = ((l.enum.take k).map Prod.fst).countP (fun j => rep.contains j) := by
        rw [List.countP_map]
        rfl
    _ = (List.range k).countP (fun j => rep.contains j) := by rw [h1]

lemma repCountBelow_succ (rep : List Nat) (k : Nat) :
    repCountBelow rep (k + 1) =
      repCountBelow rep k + (if rep.contains k then 1 else 0) := by
  rw [repCountBelow, repCountBelow, List.range_succ, List.filter_append, List.length_append,
    List.filter_singleton]
  cases h : rep.contains k <;> simp [h]

lemma detectHeuristically_sections (content : Str)
    (h2 : 2 ≤ (splitIntoBlocks content).length) :
    (detectHeuristically content).sections =
      heurSecs (findRepeatedBlocks (splitIntoBlocks content))
        (splitIntoBlocks content).enum 0 0 := by
  have hne : ¬ (splitIntoBlocks content = []) := by
    intro h; rw [h] at h2; simp at h2
  have hone : ¬ ((splitIntoBlocks content).length = 1) := by omega
  rw [detectHeuristically]
  simp only [hne, hone, if_false]
  rcases hgo : heuristicGo (findRepeatedBlocks (splitIntoBlocks content))
      (splitIntoBlocks content).enum 0 0 [] [] with ⟨parts, secs⟩
  have := heuristicGo_secs_eq (findRepeatedBlocks (splitIntoBlocks content))
    (splitIntoBlocks content).enum 0 0
  rw [hgo] at this
  exact this

/-- C9: in heuristic mode (two or more blank-line-separated blocks), a block
index is marked repeated exactly when it belongs to a pair of blocks whose
normalized similarity reaches the `0.85` threshold; every repeated block
becomes a Chorus with confidence `0.8` whose number is the running chorus
count except that the first chorus is unnumbered (a number `1` is never
emitted); every other block becomes a Verse with confidence `0.6`, numbered
sequentially from `1` in document order. -/
theorem C9_heuristic_classification :
    ∀ content : Str,
      2 ≤ (splitIntoBlocks content).length →
      ((detectHeuristically content).sections.length = (splitIntoBlocks content).length ∧
       ∀ k, k < (splitIntoBlocks content).length →
        (((findRepeatedBlocks (splitIntoBlocks content)).contains k = true) ↔
          ∃ i j, i < (splitIntoBlocks content).length ∧
            j < (splitIntoBlocks content).length ∧ i < j ∧
            chorusSimilarityThreshold ≤ calculateSimilarity
              (((splitIntoBlocks content).getD i ⟨[], 0, 0⟩).content)
              (((splitIntoBlocks content).getD j ⟨[], 0, 0⟩).content) ∧
            (k = i ∨ k = j)) ∧
        ((findRepeatedBlocks (splitIntoBlocks content)).contains k = true →
          (detectHeuristically content).sections.getD k noSection =
            ⟨.chorus,
             (if 1 < repCountBelow (findRepeatedBlocks (splitIntoBlocks content)) (k + 1)
              then some (repCountBelow (findRepeatedBlocks (splitIntoBlocks content)) (k + 1))
              else none),
             ((splitIntoBlocks content).getD k ⟨[], 0, 0⟩).startLine,
             ((splitIntoBlocks content).getD k ⟨[], 0, 0⟩).endLine,
             ((splitIntoBlocks content).getD k ⟨[], 0, 0⟩).content, 4/5, true⟩ ∧
          ((detectHeuristically content).sections.getD k noSection).number ≠ some 1) ∧
        ((findRepeatedBlocks (splitIntoBlocks content)).contains k = false →
          (detectHeuristically content).sections.getD k noSection =
            ⟨.verse,
             some (k + 1 - repCountBelow (findRepeatedBlocks (splitIntoBlocks content)) (k + 1)),
             ((splitIntoBlocks content).getD k ⟨[], 0, 0⟩).startLine,
             ((splitIntoBlocks content).getD k ⟨[], 0, 0⟩).endLine,
             ((splitIntoBlocks content).getD k ⟨[], 0, 0⟩).content, 3/5, true⟩)) := by
  intro content h2
  have hsec := detectHeuristically_sections content h2
  refine ⟨?_, ?_⟩
  · rw [hsec, heurSecs_len, List.enum_length]
  intro k hk
  have hke : k < (splitIntoBlocks content).enum.length := by
    simpa [List.enum_length] using hk
  have hget := heurSecs_get (findRepeatedBlocks (splitIntoBlocks content))
    (splitIntoBlocks content).enum 0 0 k hke
  rw [enum_getD_blocks _ k hk,
    enum_take_count (findRepeatedBlocks (splitIntoBlocks content)) _ k (le_of_lt hk)] at hget
  have hle : repCountBelow (findRepeatedBlocks (splitIntoBlocks content)) k ≤ k := by
    rw [repCountBelow]
    calc ((List.range k).filter
          (fun j => (findRepeatedBlocks (splitIntoBlocks content)).contains j)).length
        ≤ (List.range k).length := List.length_filter_le _ _
      _ = k := List.length_range k
  refine ⟨mem_findRepeatedBlocks _ k, ?_, ?_⟩
  · intro hrepk
    have hcount : repCountBelow (findRepeatedBlocks (splitIntoBlocks content)) (k + 1)
        = repCountBelow (findRepeatedBlocks (splitIntoBlocks content)) k + 1 := by
      rw [repCountBelow_succ, hrepk]
      simp
    rw [hsec, hget]
    dsimp only
    rw [if_pos hrepk, hcount]
    have e : (0 : Nat) + repCountBelow (findRepeatedBlocks (splitIntoBlocks content)) k + 1
        = repCountBelow (findRepeatedBlocks (splitIntoBlocks content)) k + 1 := by omega
    rw [e]
    refine ⟨rfl, ?_⟩
    dsimp only
    split
    · intro hcontra
      rw [Option.some.injEq] at hcontra
      omega
    · simp
  · intro hrepk
    have hcount : repCountBelow (findRepeatedBlocks (splitIntoBlocks content)) (k + 1)
        = repCountBelow (findRepeatedBlocks (splitIntoBlocks content)) k := by
      rw [repCountBelow_succ, hrepk]
      simp
    rw [hsec, hget]
    dsimp only
    rw [if_neg (by rw [hrepk]; exact Bool.false_ne_true), hcount]
    have e : (0 : Nat) + (k - repCountBelow (findRepeatedBlocks (splitIntoBlocks content)) k) + 1
        = k + 1 - repCountBelow (findRepeatedBlocks (splitIntoBlocks content)) k := by omega
    rw [e]

section
attribute [local semireducible] Rat.add Rat.mul Rat.inv Rat.sub Rat.ofScientific

set_option maxRecDepth 40000 in
/-- Witness for C9: three blocks where the first and last are identical; the
first becomes an unnumbered Chorus. -/
theorem C9_witness :
    2 ≤ (splitIntoBlocks (str "la la la\n\nsomething different\n\nla la la")).length ∧
    (findRepeatedBlocks
      (splitIntoBlocks (str "la la la\n\nsomething different\n\nla la la"))).contains 0 = true ∧
    ((detectHeuristically (str "la la la\n\nsomething different\n\nla la la")).sections.getD 0
      noSection).number ≠ some 1 := by
  refine ⟨by decide, by decide, ?_⟩
  exact (((C9_heuristic_classification _ (by decide)).2 0 (by decide)).2.1 (by decide)).2

end

/-! ### C5: the PlainText fallback -/

lemma buildSongData_ok (name : Str) (artist : Option Str) (okey : Option MusicalKey)
    (tempo : Option Nat) (lyrics chart notes : Option Str)
    (h2 : name.length ≤ 255) (h3 : pyStrip name ≠ [])
    (h4 : (normField artist).any (fun a => 255 < a.length) = false)
    (h5 : tempo.any (fun t => t < 20 || 300 < t) = false) :
    buildSongData name artist okey tempo lyrics chart notes =
      .ok ⟨pyStrip name, normField artist, okey, tempo, normField lyrics, normField chart,
        normField notes⟩ := by
  have h1 : name ≠ [] := by
    intro h
    exact h3 (by rw [h]; rfl)
  unfold buildSongData
  rw [if_neg h1, if_neg (by omega), if_neg h3, if_neg (by simp [h4]), if_neg (by simp [h5])]

/-- C5 counterexample: on empty content and an empty filename every title
source is empty, pydantic rejects the empty name, and the PlainText parser
fails instead of succeeding. -/
theorem C5_counterexample :
    (plaintextParse [] []).success = false ∧ (plaintextParse [] []).songData = none := by
  refine ⟨?_, ?_⟩ <;> decide

/-- C5 (amended): whenever the title the PlainText parser settles on (explicit
header, else first plausible content line, else filename-derived) is not
whitespace-only, fits in 255 characters, and the extracted artist fits in 255
characters, `parse` succeeds and the song's name is the stripped title, which
is non-empty. -/
theorem C5_plaintext_success (content filename : Str)
    (h2 : (plaintextTitleUsed content filename).length ≤ 255)
    (h3 : pyStrip (plaintextTitleUsed content filename) ≠ [])
    (h4 : (normField (extractFirst content plainArtistREs)).any
      (fun a => 255 < a.length) = false) :
    (plaintextParse content filename).success = true ∧
    ∃ sd, (plaintextParse content filename).songData = some sd ∧
      sd.name = pyStrip (plaintextTitleUsed content filename) ∧ sd.name ≠ [] := by
  rw [plaintextParse]
  dsimp only
  rw [buildSongData_ok _ _ _ _ _ _ _ h2 h3 h4 ?h5]
  case h5 =>
    cases extractFirst content plainTempoREs with
    | none => rfl
    | some ts =>
      dsimp only
      split
      · next h =>
        simp only [Option.any_some]
        have := h.1
        have := h.2
        simp only [decide_eq_false_iff_not, Bool.or_eq_false_iff]
        constructor <;> simp <;> omega
      · rfl
  dsimp only
  exact ⟨rfl, ⟨_, rfl, rfl, h3⟩⟩

/-- Witness for C5: ordinary one-line content under a plain filename parses
successfully with that line as the name. -/
theorem C5_witness :
    (plaintextParse (str "Hello World") (str "x.txt")).success = true ∧
    ∃ sd, (plaintextParse (str "Hello World") (str "x.txt")).songData = some sd ∧
      sd.name = pyStrip (plaintextTitleUsed (str "Hello World") (str "x.txt")) ∧
      sd.name ≠ [] := by
  exact C5_plaintext_success (str "Hello World") (str "x.txt") (by decide) (by decide)
    (by decide)

/-! ### C8: directive precedence in the ChordPro parser -/

lemma getLast?_cons_form {α : Type} (x : α) (L : List α) :
    (x :: L).getLast? =
      match L.getLast? with
      | some y => some y
      | none => some x := by
  cases L with
  | nil => rfl
  | cons y rest =>
    cases hg : (y :: rest).getLast? with
    | none => exact absurd (List.getLast?_eq_none_iff.mp hg) (by simp)
    | some z => rw [List.getLast?_cons_cons, hg]

set_option maxHeartbeats 1600000 in
lemma chordproStep_key (st : CPState) (d : Str × Str) :
    (chordproStep st d).key =
      if pyLower d.1 = str "key" then some (pyStrip d.2) else st.key := by
  by_cases hk : pyLower d.1 = str "key"
  · rw [chordproStep, hk]
    rfl
  · rw [if_neg hk, chordproStep]
    dsimp only
    split_ifs <;> first
      | rfl
      | (split <;> first | rfl | (split_ifs <;> rfl))
      | exact absurd (by assumption) hk

set_option maxHeartbeats 1600000 in
lemma chordproStep_tempo (st : CPState) (d : Str × Str) :
    (chordproStep st d).tempo =
      if pyLower d.1 = str "tempo" then
        match tempoDirective (pyStrip d.2) with
        | some tv => some tv
        | none => st.tempo
      else st.tempo := by
  by_cases hk : pyLower d.1 = str "tempo"
  · rw [chordproStep, hk]
    dsimp only
    rw [if_neg (by decide), if_neg (by decide), if_neg (by decide), if_neg (by decide),
      if_neg (by decide), if_pos rfl, if_pos rfl, tempoDirective]
    cases hs : reSearch digitsRE 0 (pyStrip d.2) with
    | none => rfl
    | some r =>
      obtain ⟨a, b, g⟩ := r
      dsimp only
      split_ifs <;> rfl
  · rw [if_neg hk, chordproStep]
    dsimp only
    split_ifs <;> first
      | rfl
      | (split <;> first | rfl | (split_ifs <;> rfl))
      | exact absurd (by assumption) hk

set_option maxHeartbeats 1600000 in
lemma chordproStep_title (st : CPState) (d : Str × Str) :
    (chordproStep st d).title =
      if pyLower d.1 = str "title" ∨ pyLower d.1 = str "t" then
        (if optFalsy st.title then some (pyStrip d.2) else st.title)
      else st.title := by
  by_cases hk : pyLower d.1 = str "title" ∨ pyLower d.1 = str "t"
  · rw [if_pos hk, chordproStep]
    dsimp only
    rw [if_pos hk]
    split_ifs <;> rfl
  · rw [if_neg hk, chordproStep]
    dsimp only
    split_ifs <;> first
      | rfl
      | (split <;> first | rfl | (split_ifs <;> rfl))
      | exact absurd (by assumption) hk

set_option maxHeartbeats 1600000 in
lemma chordproStep_artist (st : CPState) (d : Str × Str) :
    (chordproStep st d).artist =
      if pyLower d.1 = str "artist" ∨ pyLower d.1 = str "a" ∨
          pyLower d.1 = str "subtitle" ∨ pyLower d.1 = str "st" then
        (if optFalsy st.artist then some (pyStrip d.2) else st.artist)
      else st.artist := by
  by_cases hk : pyLower d.1 = str "artist" ∨ pyLower d.1 = str "a" ∨
      pyLower d.1 = str "subtitle" ∨ pyLower d.1 = str "st"
  · rw [if_pos hk, chordproStep]
    dsimp only
    have htitle : ¬ (pyLower d.1 = str "title" ∨ pyLower d.1 = str "t") := by
      rcases hk with h | h | h | h <;> rw [h] <;> decide
    rw [if_neg htitle]
    by_cases ha : pyLower d.1 = str "artist" ∨ pyLower d.1 = str "a"
    · rw [if_pos ha]
      split_ifs <;> rfl
    · have hsub : pyLower d.1 = str "subtitle" ∨ pyLower d.1 = str "st" := by tauto
      rw [if_neg ha, if_pos hsub]
      split_ifs <;> rfl
  · rw [if_neg hk, chordproStep]
    dsimp only
    split_ifs <;> first
      | rfl
      | (split <;> first | rfl | (split_ifs <;> rfl))
      | exact absurd (by assumption)
          (fun (h : pyLower d.1 = str "artist" ∨ pyLower d.1 = str "a") =>
            hk (h.elim Or.inl (Or.inr ∘ Or.inl)))
      | exact absurd (by assumption)
          (fun (h : pyLower d.1 = str "subtitle" ∨ pyLower d.1 = str "st") =>
            hk (h.elim (Or.inr ∘ Or.inr ∘ Or.inl) (Or.inr ∘ Or.inr ∘ Or.inr)))

lemma chordproFold_key (l : List (Str × Str)) :
    ∀ st : CPState, (l.foldl chordproStep st).key =
      match (l.filter (fun dv => pyLower dv.1 = str "key")).getLast? with
      | some dv => some (pyStrip dv.2)
      | none => st.key := by
  induction l with
  | nil => intro st; rfl
  | cons d t ih =>
    intro st
    rw [List.foldl_cons, ih (chordproStep st d), chordproStep_key]
    by_cases hd : pyLower d.1 = str "key"
    · rw [if_pos hd, List.filter_cons_of_pos (by simpa using hd), getLast?_cons_form]
      cases hL : (t.filter fun dv => decide (pyLower dv.1 = str "key")).getLast? with
      | some y => rfl
      | none => rfl
    · rw [if_neg hd, List.filter_cons_of_neg (by simpa using hd)]

lemma chordproFold_tempo (l : List (Str × Str)) :
    ∀ st : CPState, (l.foldl chordproStep st).tempo =
      match ((l.filter (fun dv => pyLower dv.1 = str "tempo")).filterMap
          (fun dv => tempoDirective (pyStrip dv.2))).getLast? with
      | some tv => some tv
      | none => st.tempo := by
  induction l with
  | nil => intro st; rfl
  | cons d t ih =>
    intro st
    rw [List.foldl_cons, ih (chordproStep st d), chordproStep_tempo]
    by_cases hd : pyLower d.1 = str "tempo"
    · rw [if_pos hd, List.filter_cons_of_pos (by simpa using hd)]
      cases hg : tempoDirective (pyStrip d.2) with
      | none =>
        rw [List.filterMap_cons]
        dsimp only
        rw [hg]
      | some tv =>
        rw [List.filterMap_cons]
        dsimp only
        rw [hg, getLast?_cons_form]
        cases hL : ((t.filter fun dv => decide (pyLower dv.1 = str "tempo")).filterMap
            (fun dv => tempoDirective (pyStrip dv.2))).getLast? with
        | some y => rfl
        | none => rfl
    · rw [if_neg hd, List.filter_cons_of_neg (by simpa using hd)]

lemma titleFold_stay (t0 : Option Str) (vs : List Str) (h : ¬ optFalsy t0 = true) :
    titleFold t0 vs = t0 := by
  cases vs with
  | nil => rfl
  | cons v vs => rw [titleFold, if_neg h]

lemma chordproFold_title (l : List (Str × Str)) :
    ∀ st : CPState, (l.foldl chordproStep st).title =
      titleFold st.title
        ((l.filter (fun dv => pyLower dv.1 = str "title" ∨ pyLower dv.1 = str "t")).map
          (fun dv => pyStrip dv.2)) := by
  induction l with
  | nil => intro st; rfl
  | cons d t ih =>
    intro st
    rw [List.foldl_cons, ih (chordproStep st d), chordproStep_title]
    by_cases hd : pyLower d.1 = str "title" ∨ pyLower d.1 = str "t"
    · rw [if_pos hd, List.filter_cons_of_pos (by simpa using hd), List.map_cons, titleFold]
      split_ifs with hf
      · rfl
      · exact titleFold_stay st.title _ hf
    · rw [if_neg hd, List.filter_cons_of_neg (by simpa using hd)]

lemma chordproFold_artist (l : List (Str × Str)) :
    ∀ st : CPState, (l.foldl chordproStep st).artist =
      titleFold st.artist
        ((l.filter (fun dv => pyLower dv.1 = str "artist" ∨ pyLower dv.1 = str "a" ∨
            pyLower dv.1 = str "subtitle" ∨ pyLower dv.1 = str "st")).map
          (fun dv => pyStrip dv.2)) := by
  induction l with
  | nil => intro st; rfl
  | cons d t ih =>
    intro st
    rw [List.foldl_cons, ih (chordproStep st d), chordproStep_artist]
    by_cases hd : pyLower d.1 = str "artist" ∨ pyLower d.1 = str "a" ∨
        pyLower d.1 = str "subtitle" ∨ pyLower d.1 = str "st"
    · rw [if_pos hd, List.filter_cons_of_pos (by simpa using hd), List.map_cons, titleFold]
      split_ifs with hf
      · rfl
      · exact titleFold_stay st.artist _ hf
    · rw [if_neg hd, List.filter_cons_of_neg (by simpa using hd)]

lemma titleFold_someEmpty (vs : List Str) :
    titleFold (some []) vs = some ((vs.filter (fun v => v ≠ [])).headD []) := by
  induction vs with
  | nil => rfl
  | cons v vs ih =>
    rw [titleFold, if_pos (by rfl)]
    by_cases hv : v = []
    · subst hv
      rw [ih, List.filter_cons_of_neg (by simp)]
    · rw [titleFold_stay _ _ (by simpa [optFalsy] using hv),
        List.filter_cons_of_pos (by simpa using hv)]
      rfl

lemma titleFold_none_firstNonempty (vs : List Str) :
    titleFold none vs = firstNonemptyValue vs := by
  cases vs with
  | nil => rfl
  | cons v vs =>
    rw [titleFold, if_pos (by rfl)]
    by_cases hv : v = []
    · subst hv
      rw [titleFold_someEmpty, firstNonemptyValue,
        List.filter_cons_of_neg (by simp)]
      cases hf : vs.filter (fun v => v ≠ []) with
      | nil => rfl
      | cons w ws => rfl
    · rw [titleFold_stay _ _ (by simpa [optFalsy] using hv), firstNonemptyValue,
        List.filter_cons_of_pos (by simpa using hv)]

/-- C8 counterexample: with two `key` directives the second one is the key
used, not the first. -/
theorem C8_counterexample :
    (chordproState (str "\x7bkey: G\x7d\n\x7bkey: D\x7d\nx")).key = some (str "D") ∧
    (chordproParse (str "\x7bkey: G\x7d\n\x7bkey: D\x7d\nx") (str "s.cho")).specifiedKey =
      some MusicalKey.D := by
  refine ⟨?_, ?_⟩ <;> decide

/-- C8 (amended): in the ChordPro directive loop, `key` is last-occurrence
wins and `tempo` is last-valid-occurrence wins, while `title` takes the first
non-empty value of `title`/`t` and `artist` the first non-empty value of
`artist`/`a`/`subtitle`/`st`; the parser's `specified_key` is the normalized
final `key` value whenever parsing succeeds. -/
theorem C8_directive_precedence :
    (∀ content : Str,
      (chordproState content).key =
        (((directivesOf content).filter
          (fun dv => pyLower dv.1 = str "key")).getLast?).map (fun dv => pyStrip dv.2) ∧
      (chordproState content).tempo =
        (((directivesOf content).filter (fun dv => pyLower dv.1 = str "tempo")).filterMap
          (fun dv => tempoDirective (pyStrip dv.2))).getLast? ∧
      (chordproState content).title =
        firstNonemptyValue
          (((directivesOf content).filter
            (fun dv => pyLower dv.1 = str "title" ∨ pyLower dv.1 = str "t")).map
            (fun dv => pyStrip dv.2)) ∧
      (chordproState content).artist =
        firstNonemptyValue
          (((directivesOf content).filter
            (fun dv => pyLower dv.1 = str "artist" ∨ pyLower dv.1 = str "a" ∨
              pyLower dv.1 = str "subtitle" ∨ pyLower dv.1 = str "st")).map
            (fun dv => pyStrip dv.2))) ∧
    (∀ content filename : Str,
      (chordproParse content filename).specifiedKey =
        if (chordproParse content filename).success then
          normalizeKey (chordproState content).key
        else none) := by
  constructor
  · intro content
    refine ⟨?_, ?_, ?_, ?_⟩
    · rw [chordproState, chordproFold_key]
      cases hL : ((directivesOf content).filter
          (fun dv => decide (pyLower dv.1 = str "key"))).getLast? with
      | some y => rfl
      | none => rfl
    · rw [chordproState, chordproFold_tempo]
      cases hL : (((directivesOf content).filter
          (fun dv => decide (pyLower dv.1 = str "tempo"))).filterMap
          (fun dv => tempoDirective (pyStrip dv.2))).getLast? with
      | some y => rfl
      | none => rfl
    · rw [chordproState, chordproFold_title, titleFold_none_firstNonempty]
    · rw [chordproState, chordproFold_artist, titleFold_none_firstNonempty]
  · intro content filename
    rw [chordproParse]
    split
    · rfl
    · rfl
/-! ### C6: marker normalization idempotence -/

lemma set_getD_self {α : Type} (l : List α) (i : Nat) (d : α) :
    l.set i (l.getD i d) = l := by
  induction l generalizing i with
  | nil => rfl
  | cons a t ih =>
    cases i with
    | zero => rfl
    | succ i =>
      show a :: t.set i (t.getD i d) = a :: t
      rw [ih]

lemma getD_mem {α : Type} (l : List α) (i : Nat) (d : α) (h : i < l.length) :
    l.getD i d ∈ l := by
  rw [List.getD_eq_getElem _ _ h]
  exact List.getElem_mem h

lemma splitLines_ne_nil (s : Str) : splitLines s ≠ [] := by
  cases s with
  | nil => simp [splitLines]
  | cons c t =>
    rw [splitLines]
    split
    · simp
    · split <;> simp

lemma joinLines_splitLines (s : Str) : joinLines (splitLines s) = s := by
  induction s with
  | nil => rfl
  | cons c t ih =>
    rw [splitLines]
    by_cases hc : c = '\n'
    · subst hc
      rw [if_pos rfl]
      cases hsp : splitLines t with
      | nil => exact absurd hsp (splitLines_ne_nil t)
      | cons l ls =>
        show '\n' :: joinLines (l :: ls) = '\n' :: t
        rw [← hsp, ih]
    · rw [if_neg hc]
      cases hsp : splitLines t with
      | nil => exact absurd hsp (splitLines_ne_nil t)
      | cons l ls =>
        cases ls with
        | nil =>
          have hl : l = t := by
            rw [← ih, hsp]
            rfl
          show c :: l = c :: t
          rw [hl]
        | cons l2 ls2 =>
          have hrest : l ++ '\n' :: joinLines (l2 :: ls2) = t := by
            rw [← ih, hsp]
            rfl
          show c :: (l ++ '\n' :: joinLines (l2 :: ls2)) = c :: t
          rw [hrest]

lemma mem_findExistingMarkers {lines : List Str} {m : Nat × SectionType × Option Nat}
    (h : m ∈ findExistingMarkers lines) :
    m.1 < lines.length ∧ markerParse (lines.getD m.1 []) = some (m.2.1, m.2.2) := by
  rw [findExistingMarkers, List.mem_filterMap] at h
  obtain ⟨p, hp, hmap⟩ := h
  obtain ⟨i, line⟩ := p
  rcases hparse : markerParse line with _ | tn
  · rw [hparse] at hmap
    simp at hmap
  · rw [hparse] at hmap
    simp only [Option.map_some'] at hmap
    have hget : lines.get? i = some line := List.mk_mem_enum_iff_get?.mp hp
    have hlt : i < lines.length := by
      by_contra hge
      rw [List.get?_eq_none.mpr (by omega)] at hget
      exact Option.noConfusion hget
    have hline : lines.getD i [] = line := by
      rw [List.getD_eq_getElem _ _ hlt]
      have := List.get?_eq_getElem? lines i
      rw [hget, List.getElem?_eq_getElem hlt] at this
      exact (Option.some.injEq _ _ ▸ this).symm
    injection hmap with hmap'
    subst hmap'
    refine ⟨hlt, ?_⟩
    dsimp only
    rw [hline, hparse]

lemma processMarkersGo_keep (lines : List Str) :
    ∀ (markers : List (Nat × SectionType × Option Nat)) (counts : List (SectionType × Nat))
      (normLines : List Str) (secs : List DetectedSection),
      (∀ m ∈ markers, (m.2.1 = SectionType.verse ∨ m.2.1 = SectionType.chorus) →
        m.2.2.isSome) →
      (∀ m ∈ markers, normLines.getD m.1 [] = formatMarker m.2.1 m.2.2) →
      (processMarkersGo lines markers counts normLines secs).1 = normLines := by
  intro markers
  induction markers with
  | nil => intro counts normLines secs _ _; rfl
  | cons m rest ih =>
    intro counts normLines secs hvc hline
    obtain ⟨i, t, n⟩ := m
    rw [processMarkersGo.eq_def]
    dsimp only
    cases n with
    | some k =>
      dsimp only [resolveNumber]
      have hset : normLines.set i (formatMarker t (some k)) = normLines := by
        have hl := hline (i, t, some k) (List.mem_cons_self _ _)
        dsimp only at hl
        rw [← hl]
        exact set_getD_self normLines i []
      rw [hset]
      exact ih _ _ _ (fun m' hm' => hvc m' (List.mem_cons_of_mem _ hm'))
        (fun m' hm' => hline m' (List.mem_cons_of_mem _ hm'))
    | none =>
      have hnvc : ¬ (t = SectionType.verse ∨ t = SectionType.chorus) := by
        intro hvc'
        have := hvc (i, t, none) (List.mem_cons_self _ _) hvc'
        simp at this
      dsimp only [resolveNumber]
      rw [if_neg hnvc]
      have hset : normLines.set i (formatMarker t none) = normLines := by
        have hl := hline (i, t, none) (List.mem_cons_self _ _)
        dsimp only at hl
        rw [← hl]
        exact set_getD_self normLines i []
      rw [hset]
      exact ih _ _ _ (fun m' hm' => hvc m' (List.mem_cons_of_mem _ hm'))
        (fun m' hm' => hline m' (List.mem_cons_of_mem _ hm'))

/-- C6 counterexample: the already-"normalized-looking" content
`"[Verse 1]\nLa\n[Chorus]\nLo"` is changed by `detect_sections` — the
unnumbered `[Chorus]` is renumbered to `[Chorus 1]`. -/
theorem C6_counterexample :
    (detectSections (str "[Verse 1]\nLa\n[Chorus]\nLo")).hadExistingMarkers = true ∧
    (detectSections (str "[Verse 1]\nLa\n[Chorus]\nLo")).normalizedContent ≠
      str "[Verse 1]\nLa\n[Chorus]\nLo" ∧
    (detectSections (str "[Verse 1]\nLa\n[Chorus]\nLo")).normalizedContent =
      str "[Verse 1]\nLa\n[Chorus 1]\nLo" := by
  refine ⟨?_, ?_, ?_⟩ <;> decide

/-- C6 (amended): when every marker line is exactly in the formatter's
canonical form and every Verse/Chorus marker carries an explicit number,
`detect_sections` reports existing markers and returns the content
unchanged. -/
theorem C6_canonical_idempotent :
    ∀ content : Str, content ≠ [] → pyStrip content ≠ [] →
      findExistingMarkers (splitLines content) ≠ [] →
      (∀ l ∈ splitLines content, ∀ t n, markerParse l = some (t, n) →
        formatMarker t n = l ∧
          ((t = SectionType.verse ∨ t = SectionType.chorus) → n.isSome)) →
      (detectSections content).hadExistingMarkers = true ∧
      (detectSections content).normalizedContent = content := by
  intro content h1 h2 h3 hcanon
  rw [detectSections, if_neg (by push_neg; exact ⟨h1, h2⟩)]
  dsimp only
  rw [if_pos h3, processMarkers]
  have hkeep : (processMarkersGo (splitLines content)
      (findExistingMarkers (splitLines content)) [] (splitLines content) []).1 =
      splitLines content := by
    apply processMarkersGo_keep
    · intro m hm hvc
      obtain ⟨hlt, hparse⟩ := mem_findExistingMarkers hm
      exact (hcanon _ (getD_mem _ _ _ hlt) _ _ hparse).2 hvc
    · intro m hm
      obtain ⟨hlt, hparse⟩ := mem_findExistingMarkers hm
      exact ((hcanon _ (getD_mem _ _ _ hlt) _ _ hparse).1).symm
  rcases hgo : processMarkersGo (splitLines content)
      (findExistingMarkers (splitLines content)) [] (splitLines content) [] with ⟨nl, secs⟩
  rw [hgo] at hkeep
  dsimp only at hkeep ⊢
  rw [hkeep, joinLines_splitLines]
  exact ⟨rfl, rfl⟩

/-- Witness for C6 at a fully canonical input: both markers numbered
canonically, content kept verbatim. -/
theorem C6_witness :
    (detectSections (str "[Verse 1]\nLa\n[Chorus 2]\nLo")).hadExistingMarkers = true ∧
    (detectSections (str "[Verse 1]\nLa\n[Chorus 2]\nLo")).normalizedContent =
      str "[Verse 1]\nLa\n[Chorus 2]\nLo" := by
  refine C6_canonical_idempotent (str "[Verse 1]\nLa\n[Chorus 2]\nLo")
    (by decide) (by decide) (by decide) ?_
  intro l hl t n hparse
  have h : ∀ l ∈ splitLines (str "[Verse 1]\nLa\n[Chorus 2]\nLo"),
      (match markerParse l with
       | some tn =>
         decide (formatMarker tn.1 tn.2 = l) &&
           (!(decide (tn.1 = SectionType.verse ∨ tn.1 = SectionType.chorus)) || tn.2.isSome)
       | none => true) = true := by decide
  have hthis := h l hl
  rw [hparse] at hthis
  simp only [Bool.and_eq_true, Bool.or_eq_true, decide_eq_true_eq,
    Bool.not_eq_true', decide_eq_false_iff_not] at hthis
  obtain ⟨hfmt, hvc⟩ := hthis
  refine ⟨hfmt, fun hv => ?_⟩
  rcases hvc with hvc | hvc
  · exact absurd hv hvc
  · exact hvc

/-! ### C7: chart-lyrics round trip in the ChordPro parser -/

lemma wsFree_nil : wsFree [] = [] := rfl

lemma wsFree_cons (c : Char) (t : Str) :
    wsFree (c :: t) = if pyIsSpace c then wsFree t else c :: wsFree t := by
  show List.filter _ (c :: t) = _
  rw [List.filter_cons]
  by_cases h : pyIsSpace c
  · rw [if_neg (by simp [h]), if_pos h]
    rfl
  · rw [if_pos (by simp [h]), if_neg h]
    rfl

lemma wsFree_append (a b : Str) : wsFree (a ++ b) = wsFree a ++ wsFree b :=
  List.filter_append _ _

lemma wsFree_dropWhile (s : Str) : wsFree (s.dropWhile pyIsSpace) = wsFree s := by
  induction s with
  | nil => rfl
  | cons c t ih =>
    rw [List.dropWhile_cons]
    by_cases h : pyIsSpace c
    · rw [if_pos h, ih, wsFree_cons, if_pos h]
    · rw [if_neg h]

lemma wsFree_reverse (s : Str) : wsFree s.reverse = (wsFree s).reverse :=
  List.filter_reverse _ _

lemma wsFree_rstrip (s : Str) : wsFree (pyRStrip s) = wsFree s := by
  rw [pyRStrip, wsFree_reverse, wsFree_dropWhile, wsFree_reverse, List.reverse_reverse]

lemma wsFree_strip (s : Str) : wsFree (pyStrip s) = wsFree s := by
  rw [pyStrip, wsFree_rstrip, pyLStrip, wsFree_dropWhile]

lemma wsFree_joinLines (L : List Str) : wsFree (joinLines L) = (L.map wsFree).flatten := by
  induction L with
  | nil => rfl
  | cons l rest ih =>
    cases rest with
    | nil => show wsFree l = (wsFree l ++ []); rw [List.append_nil]
    | cons l2 rest2 =>
      show wsFree (l ++ '\n' :: joinLines (l2 :: rest2)) = _
      rw [wsFree_append, wsFree_cons, if_pos (by decide), ih]
      rfl

lemma wsFree_splitLines (s : Str) : ((splitLines s).map wsFree).flatten = wsFree s := by
  induction s with
  | nil => rfl
  | cons c t ih =>
    rw [splitLines]
    by_cases hc : c = '\n'
    · rw [if_pos hc, wsFree_cons, if_pos (by rw [hc]; decide), ← ih]
      rfl
    · rw [if_neg hc]
      cases hsp : splitLines t with
      | nil => exact absurd hsp (splitLines_ne_nil t)
      | cons l ls =>
        rw [hsp] at ih
        rw [List.map_cons, List.flatten_cons, wsFree_cons, wsFree_cons]
        by_cases hspc : pyIsSpace c
        · rw [if_pos hspc, if_pos hspc, ← ih]
          rfl
        · rw [if_neg hspc, if_neg hspc, ← ih]
          rfl

lemma wsFree_collapseBlank (L : List Str) :
    ∀ b, ((collapseBlankBy List.isEmpty L b).map wsFree).flatten = (L.map wsFree).flatten := by
  induction L with
  | nil => intro b; rfl
  | cons l rest ih =>
    intro b
    rw [collapseBlankBy]
    split_ifs with h
    · have hl : l = [] := List.isEmpty_iff.mp h.1
      subst hl
      rw [ih, List.map_cons, List.flatten_cons, wsFree_nil, List.nil_append]
    · rw [List.map_cons, List.flatten_cons, ih, List.map_cons, List.flatten_cons]

lemma wsFree_map_pyStrip (L : List Str) :
    ((L.map pyStrip).map wsFree).flatten = (L.map wsFree).flatten := by
  induction L with
  | nil => rfl
  | cons l rest ih =>
    simp only [List.map_cons, List.flatten_cons, ih, wsFree_strip]

lemma buildSongData_chart (name : Str) (artist : Option Str) (okey : Option MusicalKey)
    (tempo : Option Nat) (lyrics chart notes : Option Str) (sd : SongCreate)
    (h : buildSongData name artist okey tempo lyrics chart notes = .ok sd) :
    sd.chordproChart = normField chart := by
  rw [buildSongData] at h
  split_ifs at h <;> first
    | exact Except.noConfusion h
    | (injection h with h'
       rw [← h'])

/-- C7 counterexample: directive text is kept in the chart but dropped from
the lyrics, and section normalization inserts a marker, so stripping the
`[...]` tokens from the chart does not give the lyrics even up to
whitespace. -/
theorem C7_counterexample :
    (chordproParse (str "\x7btitle: X\x7d\nhello world") (str "s.cho")).success = true ∧
    ((chordproParse (str "\x7btitle: X\x7d\nhello world") (str "s.cho")).songData.map
      (fun sd => sd.chordproChart)) = some (some (str "\x7btitle: X\x7d\nhello world")) ∧
    ((chordproParse (str "\x7btitle: X\x7d\nhello world") (str "s.cho")).songData.map
      (fun sd => sd.lyrics)) = some (some (str "[Verse 1]\nhello world")) ∧
    wsFree (stripBracketTokens (str "\x7btitle: X\x7d\nhello world")) ≠
      wsFree (str "[Verse 1]\nhello world") := by
  refine ⟨?_, ?_, ?_, ?_⟩ <;> decide

/-- C7 (amended): the chart the ChordPro parser returns is the input itself
(empty input becoming `None`), and the lyrics `_extract_lyrics` produces
agree, up to whitespace, with the input after deleting every `[...]` chord
token and every `{...}` directive block — the returned lyrics additionally
undergo section-marker normalization. -/
theorem C7_roundtrip :
    ∀ content : Str,
      wsFree (chordproExtractLyrics content) =
        wsFree (reSub directiveBlockRE [] (reSub chordRE [] content)) ∧
      (∀ filename sd, (chordproParse content filename).songData = some sd →
        sd.chordproChart = normField (some content)) := by
  intro content
  constructor
  · rw [chordproExtractLyrics]
    rw [wsFree_strip, wsFree_joinLines, wsFree_collapseBlank, wsFree_map_pyStrip,
      wsFree_splitLines]
  · intro filename sd hsd
    rw [chordproParse] at hsd
    revert hsd
    split
    · next sd0 heq =>
      intro hsd
      simp only [Option.some.injEq] at hsd
      subst hsd
      exact buildSongData_chart _ _ _ _ _ _ _ _ heq
    · intro hsd
      exact Option.noConfusion hsd

/-- Witness for C7: on the counterexample input the parser produces a song
and its chart is the unmodified content. -/
theorem C7_witness :
    ∃ sd, (chordproParse (str "\x7btitle: X\x7d\nhello world") (str "s.cho")).songData =
        some sd ∧
      sd.chordproChart = normField (some (str "\x7btitle: X\x7d\nhello world")) := by
  have hsome : ((chordproParse (str "\x7btitle: X\x7d\nhello world")
      (str "s.cho")).songData).isSome = true := by decide
  obtain ⟨sd, hsd⟩ := Option.isSome_iff_exists.mp hsome
  exact ⟨sd, hsd, (C7_roundtrip (str "\x7btitle: X\x7d\nhello world")).2 (str "s.cho") sd hsd⟩

/-! ### C3: key precedence across the parsers -/

lemma buildSongData_key (name : Str) (artist : Option Str) (okey : Option MusicalKey)
    (tempo : Option Nat) (lyrics chart notes : Option Str) (sd : SongCreate)
    (h : buildSongData name artist okey tempo lyrics chart notes = .ok sd) :
    sd.originalKey = okey := by
  rw [buildSongData] at h
  split_ifs at h <;> first
    | exact Except.noConfusion h
    | (injection h with h'
       rw [← h'])

section
attribute [local semireducible] Rat.add Rat.mul Rat.inv Rat.sub Rat.ofScientific

set_option maxRecDepth 20000 in
set_option maxHeartbeats 4000000 in
/-- C3 counterexample: an OpenSong file with no `<key>` element but chords
implying G parses successfully with `original_key = None` — the OpenSong
parser never consults the key detector, although running it on the chord
tokens of the produced chart yields G. -/
theorem C3_counterexample :
    (opensongParse
      (str "<song><title>T</title><lyrics>\n[V]\n.G C D G\nla la la la\n</lyrics></song>")
      (str "f.xml")).success = true ∧
    ((opensongParse
      (str "<song><title>T</title><lyrics>\n[V]\n.G C D G\nla la la la\n</lyrics></song>")
      (str "f.xml")).songData.map (fun sd => sd.originalKey)) = some none ∧
    (opensongParse
      (str "<song><title>T</title><lyrics>\n[V]\n.G C D G\nla la la la\n</lyrics></song>")
      (str "f.xml")).specifiedKey = none ∧
    (opensongParse
      (str "<song><title>T</title><lyrics>\n[V]\n.G C D G\nla la la la\n</lyrics></song>")
      (str "f.xml")).detectedKey = none ∧
    ((opensongParse
      (str "<song><title>T</title><lyrics>\n[V]\n.G C D G\nla la la la\n</lyrics></song>")
      (str "f.xml")).songData.map (fun sd =>
        (detectKeyFromChords (extractChords (sd.chordproChart.getD []))).1)) =
      some (some MusicalKey.G) := by
  refine ⟨?_, ?_, ?_, ?_, ?_⟩ <;> decide

end

set_option maxHeartbeats 3200000 in
lemma key_precedence_shape (B : Except Str SongCreate) (spec dk : Option MusicalKey)
    (kc : Option KeyConfidence) (snb : Bool) (fmt pre : Str)
    (sd : SongCreate) :
    (∀ sd0, B = .ok sd0 → sd0.originalKey = if spec.isSome then spec else dk) →
    ((match B with
      | .ok sd0 => (⟨true, some sd0, none, fmt, spec, dk, kc, snb⟩ : ParseResult)
      | .error e => ⟨false, none, some (pre ++ e), fmt, none, none, none, false⟩) :
      ParseResult).songData = some sd →
      sd.originalKey = keyPrecedence
        ((match B with
          | .ok sd0 => (⟨true, some sd0, none, fmt, spec, dk, kc, snb⟩ : ParseResult)
          | .error e => ⟨false, none, some (pre ++ e), fmt, none, none, none, false⟩) :
          ParseResult).specifiedKey
        ((match B with
          | .ok sd0 => (⟨true, some sd0, none, fmt, spec, dk, kc, snb⟩ : ParseResult)
          | .error e => ⟨false, none, some (pre ++ e), fmt, none, none, none, false⟩) :
          ParseResult).detectedKey := by
  intro hok
  cases B with
  | ok sd0 =>
    intro h
    simp only [Option.some.injEq] at h
    subst h
    rw [hok sd0 rfl]
    rfl
  | error e =>
    intro h
    exact Option.noConfusion h

lemma opensong_shape (B : Except Str SongCreate) (fmt pre : Str)
    (okey : Option MusicalKey) :
    (∀ sd0, B = .ok sd0 → sd0.originalKey = okey) →
    ((match B with
      | .ok sd0 => (⟨true, some sd0, none, fmt, none, none, none, false⟩ : ParseResult)
      | .error e => ⟨false, none, some (pre ++ e), fmt, none, none, none, false⟩) :
      ParseResult).specifiedKey = none ∧
    ((match B with
      | .ok sd0 => (⟨true, some sd0, none, fmt, none, none, none, false⟩ : ParseResult)
      | .error e => ⟨false, none, some (pre ++ e), fmt, none, none, none, false⟩) :
      ParseResult).detectedKey = none ∧
    (∀ sd, ((match B with
      | .ok sd0 => (⟨true, some sd0, none, fmt, none, none, none, false⟩ : ParseResult)
      | .error e => ⟨false, none, some (pre ++ e), fmt, none, none, none, false⟩) :
      ParseResult).songData = some sd →
      sd.originalKey = okey) := by
  intro hok
  cases B with
  | ok sd0 =>
    refine ⟨rfl, rfl, ?_⟩
    intro sd h
    simp only [Option.some.injEq] at h
    subst h
    exact hok sd0 rfl
  | error e =>
    exact ⟨rfl, rfl, fun sd h => Option.noConfusion h⟩

set_option maxHeartbeats 1600000 in
/-- C3 (amended): the ChordPro, PlainText, OnSong, Ultimate Guitar and
OpenLyrics parsers give `original_key = specified_key if present else
detected_key`; the OpenSong parser reports no specified or detected key and
sets `original_key` solely from its `<key>` element, never invoking the key
detector. -/
theorem C3_key_precedence :
    (∀ content fn sd, (chordproParse content fn).songData = some sd →
      sd.originalKey = keyPrecedence (chordproParse content fn).specifiedKey
        (chordproParse content fn).detectedKey) ∧
    (∀ content fn sd, (plaintextParse content fn).songData = some sd →
      sd.originalKey = keyPrecedence (plaintextParse content fn).specifiedKey
        (plaintextParse content fn).detectedKey) ∧
    (∀ content fn sd, (onsongParse content fn).songData = some sd →
      sd.originalKey = keyPrecedence (onsongParse content fn).specifiedKey
        (onsongParse content fn).detectedKey) ∧
    (∀ content fn sd, (ugParse content fn).songData = some sd →
      sd.originalKey = keyPrecedence (ugParse content fn).specifiedKey
        (ugParse content fn).detectedKey) ∧
    (∀ content fn sd, (openlyricsParse content fn).songData = some sd →
      sd.originalKey = keyPrecedence (openlyricsParse content fn).specifiedKey
        (openlyricsParse content fn).detectedKey) ∧
    (∀ content fn, (opensongParse content fn).specifiedKey = none ∧
      (opensongParse content fn).detectedKey = none ∧
      (∀ sd, (opensongParse content fn).songData = some sd →
        sd.originalKey = normalizeKey (opensongKeyOf content))) := by
  refine ⟨?_, ?_, ?_, ?_, ?_, ?_⟩
  · intro content fn sd
    rw [chordproParse]
    exact key_precedence_shape _ _ _ _ _ _ _ sd
      (fun sd0 h => buildSongData_key _ _ _ _ _ _ _ _ h)
  · intro content fn sd
    rw [plaintextParse]
    exact key_precedence_shape _ _ _ _ _ _ _ sd
      (fun sd0 h => buildSongData_key _ _ _ _ _ _ _ _ h)
  · intro content fn sd
    rw [onsongParse]
    exact key_precedence_shape _ _ _ _ _ _ _ sd
      (fun sd0 h => buildSongData_key _ _ _ _ _ _ _ _ h)
  · intro content fn sd
    rw [ugParse]
    exact key_precedence_shape _ _ _ _ _ _ _ sd
      (fun sd0 h => buildSongData_key _ _ _ _ _ _ _ _ h)
  · intro content fn sd
    rw [openlyricsParse]
    cases hET : etFromstring content with
    | error e => exact fun h => Option.noConfusion h
    | ok root =>
      exact key_precedence_shape _ _ _ _ _ _ _ sd
        (fun sd0 h => buildSongData_key _ _ _ _ _ _ _ _ h)
  · intro content fn
    rw [opensongParse, opensongKeyOf]
    cases hET : etFromstring content with
    | error e => exact ⟨rfl, rfl, fun sd hsd => Option.noConfusion hsd⟩
    | ok root =>
      exact opensong_shape _ _ _ _
        (fun sd0 h => buildSongData_key _ _ _ _ _ _ _ _ h)

section
attribute [local semireducible] Rat.add Rat.mul Rat.inv Rat.sub Rat.ofScientific

set_option maxRecDepth 20000 in
set_option maxHeartbeats 4000000 in
/-- Witness for C3: a ChordPro file specifying `\x7bkey: D\x7d` whose chords imply
G reports `original_key = D` — the specified key beats the detected key. -/
theorem C3_witness :
    (chordproParse (str "\x7bkey: D\x7d\n[G]x [C]y [D]z [G]w") (str "s.cho")).specifiedKey =
      some MusicalKey.D ∧
    (chordproParse (str "\x7bkey: D\x7d\n[G]x [C]y [D]z [G]w") (str "s.cho")).detectedKey =
      some MusicalKey.G ∧
    ∃ sd, (chordproParse (str "\x7bkey: D\x7d\n[G]x [C]y [D]z [G]w") (str "s.cho")).songData =
        some sd ∧
      sd.originalKey = some MusicalKey.D := by
  refine ⟨by decide, by decide, ?_⟩
  have hsome : ((chordproParse (str "\x7bkey: D\x7d\n[G]x [C]y [D]z [G]w")
      (str "s.cho")).songData).isSome = true := by decide
  obtain ⟨sd, hsd⟩ := Option.isSome_iff_exists.mp hsome
  refine ⟨sd, hsd, ?_⟩
  rw [C3_key_precedence.1 _ _ _ hsd]
  rw [show (chordproParse (str "\x7bkey: D\x7d\n[G]x [C]y [D]z [G]w")
      (str "s.cho")).specifiedKey = some MusicalKey.D from by decide]
  rfl

end

end Javya

